import Mathlib

/-!
# deckPay smart contracts — shallow embedding and verification

This file embeds the four Algorand Python (`algopy`) contracts of the
deckPay repository in Lean 4 and proves the claimed properties:

* `PaymentContract` (`payment/contract.py`) — a custodial balance ledger
  with `deposit`, `send_money` and `withdraw`.
* `ExpenseSplitContract` (`expense/contract.py`) — group expense escrow
  with `create_group`, `contribute` and `settle_group`.
* `FundraisingContract` (`fundraise/contract.py`) — milestone fundraising
  with `create_campaign`, `donate`, `release_milestone`, `claim_refund`.
* `EventTicketingContract` (`ticketing/contract.py`) — NFT ticketing with
  `create_event`, `buy_ticket`, `use_ticket`, `withdraw_sales`.

Modelling conventions:

* Algorand addresses are `Nat`; AVM `UInt64` values are `Nat` (AVM
  arithmetic panics on 64-bit overflow/underflow and aborts the atomic
  bundle; a Nat trace therefore covers every trace the AVM admits, and
  every subtraction in the sources is guarded by an explicit `assert`).
* `BoxMap` storage is an association list with first-occurrence
  lookup/update semantics (`lookupK` / `setk`); a fresh key is appended.
* A failing `assert` aborts the whole atomic bundle: operations return
  `Except Err ...`, and a run interprets an error as "state unchanged".
  `Err` follows the error taxonomy of the design (not-found,
  authorization, state-conflict, bounds/arithmetic, temporal).
* Observable effects of one call are collected, in execution order, in a
  `List Eff`: `Eff.write k` records a box-storage write of box `k`
  (scalar global-state counters are reflected in the returned state and
  not traced) and `Eff.pay to amt` records an outbound inner payment
  transaction.  Asset-substrate inner transactions (mint / asset
  transfer / freeze) of the ticketing contract move no Algo value and
  are not traced.
-/

namespace DeckPay

/-- Algorand account address. -/
abbrev Addr := Nat

/-- Error taxonomy of the contracts' assertions. -/
inductive Err where
  | notFound
  | auth
  | stateConflict
  | bounds
  | temporal
  deriving DecidableEq, Repr

/-- Observable effect of one contract call, in execution order. -/
inductive Eff where
  | write (box : String)
  | pay (dst : Addr) (amt : Nat)
  deriving DecidableEq, Repr

/-- An inbound payment transaction grouped with the app call. -/
structure Payment where
  receiver : Addr
  amount : Nat
  deriving DecidableEq, Repr

/-! ## Association-list box storage -/

variable {κ : Type} {α : Type} [DecidableEq κ]

/-- First-occurrence lookup in an association list. -/
def lookupK : List (κ × α) → κ → Option α
  | [], _ => none
  | (k2, v) :: rest, k => if k2 = k then some v else lookupK rest k

/-- Update the first occurrence of a key, appending if it is absent. -/
def setk : List (κ × α) → κ → α → List (κ × α)
  | [], k, v => [(k, v)]
  | (k2, v2) :: rest, k, v =>
      if k2 = k then (k, v) :: rest else (k2, v2) :: setk rest k v

/-- `BoxMap.get` with default `0` (`maybe` returning zero when absent). -/
def getD (m : List (κ × Nat)) (k : κ) : Nat := (lookupK m k).getD 0

/-- Sum of all stored values of a `Nat`-valued box map. -/
def sumv (m : List (κ × Nat)) : Nat := (m.map Prod.snd).sum

/-! ## PaymentContract (`payment/contract.py`) -/

/-- Mutable state of `PaymentContract`: the `balances` box map and the
three scalar global-state counters. -/
structure PayState where
  balances : List (Addr × Nat)
  total_volume : Nat
  total_transactions : Nat
  active_users : Nat
  deriving DecidableEq, Repr

/-- The freshly deployed `PaymentContract`. -/
def PayState.init : PayState :=
  { balances := [], total_volume := 0, total_transactions := 0,
    active_users := 0 }

/-- `PaymentContract.deposit` (lines 55-78): credit the grouped payment's
amount to the caller's balance; count first-time depositors. -/
def deposit (app : Addr) (s : PayState) (sender : Addr) (pay : Payment) :
    Except Err (PayState × List Eff) :=
  if pay.receiver ≠ app then .error .bounds
  else if ¬ pay.amount > 0 then .error .bounds
  else
    let current_balance := getD s.balances sender
    let balances := setk s.balances sender (current_balance + pay.amount)
    let active_users :=
      if current_balance = 0 then s.active_users + 1 else s.active_users
    .ok ({ balances := balances
           total_volume := s.total_volume + pay.amount
           total_transactions := s.total_transactions + 1
           active_users := active_users },
         [Eff.write "balances"])

/-- `PaymentContract.send_money` (lines 80-118): internal balance
transfer; debits the caller, then credits the recipient reading the
recipient's balance from the already-debited map (as the source does);
returns the incremented transaction counter.  No outbound transfer. -/
def send_money (s : PayState) (sender recipient : Addr) (amount : Nat) :
    Except Err (PayState × Nat × List Eff) :=
  let sender_balance := getD s.balances sender
  if ¬ sender_balance ≥ amount then .error .bounds
  else if ¬ amount > 0 then .error .bounds
  else
    let b1 := setk s.balances sender (sender_balance - amount)
    let recipient_balance := getD b1 recipient
    let b2 := setk b1 recipient (recipient_balance + amount)
    let active_users :=
      if recipient_balance = 0 then s.active_users + 1 else s.active_users
    let total_transactions := s.total_transactions + 1
    .ok ({ s with
           balances := b2
           total_transactions := total_transactions
           active_users := active_users },
         total_transactions,
         [Eff.write "balances", Eff.write "balances"])

/-- `PaymentContract.withdraw` (lines 120-143): debit the caller's
balance, then send the amount back by an inner payment transaction
(debit-before-transfer). -/
def withdraw (s : PayState) (sender : Addr) (amount : Nat) :
    Except Err (PayState × List Eff) :=
  let sender_balance := getD s.balances sender
  if ¬ sender_balance ≥ amount then .error .bounds
  else if ¬ amount > 0 then .error .bounds
  else
    .ok ({ s with balances := setk s.balances sender (sender_balance - amount) },
         [Eff.write "balances", Eff.pay sender amount])

/-! ## ExpenseSplitContract (`expense/contract.py`) -/

/-- The `ExpenseGroup` arc4 struct. -/
structure ExpenseGroup where
  creator : Addr
  total_amount : Nat
  num_members : Nat
  total_contributed : Nat
  settled : Bool
  deadline : Nat
  penalty_rate : Nat
  deriving DecidableEq, Repr

/-- Mutable state of `ExpenseSplitContract`.  The `group_members` box map
is declared in the source but never written or read by any method, so it
is omitted. -/
structure ExpState where
  groups : List (Nat × ExpenseGroup)
  contributions : List ((Nat × Addr) × Nat)
  next_group_id : Nat
  total_groups : Nat
  total_split : Nat
  deriving DecidableEq, Repr

/-- The freshly deployed `ExpenseSplitContract`. -/
def ExpState.init : ExpState :=
  { groups := [], contributions := [], next_group_id := 0,
    total_groups := 0, total_split := 0 }

/-- `ExpenseSplitContract.create_group` (lines 68-114): validate bounds
and store a fresh group under the next monotonic id; returns the id. -/
def create_group (now : Nat) (s : ExpState) (sender : Addr)
    (total_amount num_members deadline penalty_rate : Nat) :
    Except Err (ExpState × Nat × List Eff) :=
  if ¬ num_members ≥ 2 then .error .bounds
  else if ¬ num_members ≤ 50 then .error .bounds
  else if ¬ total_amount > 0 then .error .bounds
  else if ¬ deadline > now then .error .temporal
  else if ¬ penalty_rate ≤ 1000 then .error .bounds
  else
    let group_id := s.next_group_id
    let group : ExpenseGroup :=
      { creator := sender
        total_amount := total_amount
        num_members := num_members
        total_contributed := 0
        settled := false
        deadline := deadline
        penalty_rate := penalty_rate }
    .ok ({ s with
           groups := setk s.groups group_id group
           next_group_id := s.next_group_id + 1
           total_groups := s.total_groups + 1 },
         group_id,
         [Eff.write "groups"])

/-- `ExpenseSplitContract.contribute` (lines 116-154): accumulate the
grouped payment into the caller's contribution record (created at zero
when absent) and into the group's `total_contributed`; requires the
group unsettled and the amount at least `total_amount // num_members`. -/
def contribute (app : Addr) (s : ExpState) (sender : Addr)
    (group_id : Nat) (pay : Payment) : Except Err (ExpState × List Eff) :=
  match lookupK s.groups group_id with
  | none => .error .notFound
  | some group =>
    if group.settled then .error .stateConflict
    else if pay.receiver ≠ app then .error .bounds
    else
      let expected_share := group.total_amount / group.num_members
      if ¬ pay.amount ≥ expected_share then .error .bounds
      else
        let sender_key := (group_id, sender)
        let current := getD s.contributions sender_key
        let contributions := setk s.contributions sender_key (current + pay.amount)
        let new_total := group.total_contributed + pay.amount
        let group2 := { group with total_contributed := new_total }
        .ok ({ s with
               contributions := contributions
               groups := setk s.groups group_id group2 },
             [Eff.write "contributions", Eff.write "groups"])

/-- `ExpenseSplitContract.settle_group` (lines 156-185): creator-only;
requires `total_contributed ≥ total_amount` and not yet settled; marks
the group settled, writes it back, and only then pays `total_amount` to
the creator by an inner transaction. -/
def settle_group (s : ExpState) (sender : Addr) (group_id : Nat) :
    Except Err (ExpState × List Eff) :=
  match lookupK s.groups group_id with
  | none => .error .notFound
  | some group =>
    if sender ≠ group.creator then .error .auth
    else if ¬ group.total_contributed ≥ group.total_amount then .error .stateConflict
    else if group.settled then .error .stateConflict
    else
      let group2 := { group with settled := true }
      .ok ({ s with
             groups := setk s.groups group_id group2
             total_split := s.total_split + group.total_amount },
           [Eff.write "groups", Eff.pay group.creator group.total_amount])

/-! ## FundraisingContract (`fundraise/contract.py`) -/

/-- The `Campaign` arc4 struct. -/
structure Campaign where
  creator : Addr
  goal : Nat
  raised : Nat
  num_milestones : Nat
  milestones_released : Nat
  deadline : Nat
  active : Bool
  fully_funded : Bool
  deriving DecidableEq, Repr

/-- Mutable state of `FundraisingContract`. -/
structure FundState where
  campaigns : List (Nat × Campaign)
  donations : List ((Nat × Addr) × Nat)
  next_campaign_id : Nat
  total_campaigns : Nat
  total_raised : Nat
  deriving DecidableEq, Repr

/-- The freshly deployed `FundraisingContract`. -/
def FundState.init : FundState :=
  { campaigns := [], donations := [], next_campaign_id := 0,
    total_campaigns := 0, total_raised := 0 }

/-- `FundraisingContract.create_campaign` (lines 73-116): validate goal,
milestone bounds and deadline; store a fresh campaign; return its id. -/
def create_campaign (now : Nat) (s : FundState) (sender : Addr)
    (goal num_milestones deadline : Nat) :
    Except Err (FundState × Nat × List Eff) :=
  if ¬ goal > 0 then .error .bounds
  else if ¬ num_milestones ≥ 1 then .error .bounds
  else if ¬ num_milestones ≤ 10 then .error .bounds
  else if ¬ deadline > now then .error .temporal
  else
    let campaign_id := s.next_campaign_id
    let campaign : Campaign :=
      { creator := sender
        goal := goal
        raised := 0
        num_milestones := num_milestones
        milestones_released := 0
        deadline := deadline
        active := true
        fully_funded := false }
    .ok ({ s with
           campaigns := setk s.campaigns campaign_id campaign
           next_campaign_id := s.next_campaign_id + 1
           total_campaigns := s.total_campaigns + 1 },
         campaign_id,
         [Eff.write "campaigns"])

/-- `FundraisingContract.donate` (lines 118-158): requires the campaign
active and a positive grouped payment to the app; accumulates into the
donor record and the campaign's raised total, and flips `fully_funded`
to true once `raised ≥ goal` (never back).  No deadline check. -/
def donate (app : Addr) (s : FundState) (sender : Addr)
    (campaign_id : Nat) (pay : Payment) : Except Err (FundState × List Eff) :=
  match lookupK s.campaigns campaign_id with
  | none => .error .notFound
  | some campaign =>
    if ¬ campaign.active then .error .stateConflict
    else if pay.receiver ≠ app then .error .bounds
    else if ¬ pay.amount > 0 then .error .bounds
    else
      let donor_key := (campaign_id, sender)
      let current_donation := getD s.donations donor_key
      let donations := setk s.donations donor_key (current_donation + pay.amount)
      let new_raised := campaign.raised + pay.amount
      let campaign2 :=
        { campaign with
          raised := new_raised
          fully_funded :=
            if new_raised ≥ campaign.goal then true else campaign.fully_funded }
      .ok ({ s with
             donations := donations
             campaigns := setk s.campaigns campaign_id campaign2
             total_raised := s.total_raised + pay.amount },
           [Eff.write "donations", Eff.write "campaigns"])

/-- Core of `FundraisingContract.release_milestone` (lines 160-197) on a
single campaign record: creator-only, requires `fully_funded` and a
remaining milestone; pays out `goal // num_milestones` and increments
the counter, deactivating the campaign once all milestones are out.
Returns the updated record and the transferred amount. -/
def releaseCore (sender : Addr) (campaign : Campaign) :
    Except Err (Campaign × Nat) :=
  if sender ≠ campaign.creator then .error .auth
  else if ¬ campaign.fully_funded then .error .stateConflict
  else if ¬ campaign.milestones_released < campaign.num_milestones then
    .error .stateConflict
  else
    let milestone_amount := campaign.goal / campaign.num_milestones
    let released := campaign.milestones_released + 1
    let campaign2 :=
      { campaign with
        milestones_released := released
        active := if released = campaign.num_milestones then false else campaign.active }
    .ok (campaign2, milestone_amount)

/-- `FundraisingContract.release_milestone` (lines 160-197).  Note the
effect order of the source: the inner payment transaction is submitted
first (line 182) and the updated campaign record is written back last
(line 197), so the trace is pay-then-write. -/
def release_milestone (s : FundState) (sender : Addr) (campaign_id : Nat) :
    Except Err (FundState × List Eff) :=
  match lookupK s.campaigns campaign_id with
  | none => .error .notFound
  | some campaign =>
    match releaseCore sender campaign with
    | .error e => .error e
    | .ok (campaign2, milestone_amount) =>
      .ok ({ s with campaigns := setk s.campaigns campaign_id campaign2 },
           [Eff.pay campaign.creator milestone_amount, Eff.write "campaigns"])

/-- `FundraisingContract.claim_refund` (lines 199-232): requires the
deadline passed, the campaign never fully funded and a nonzero donation
record; zeroes the record, then refunds by an inner transaction. -/
def claim_refund (now : Nat) (s : FundState) (sender : Addr)
    (campaign_id : Nat) : Except Err (FundState × List Eff) :=
  match lookupK s.campaigns campaign_id with
  | none => .error .notFound
  | some campaign =>
    if ¬ now > campaign.deadline then .error .temporal
    else if campaign.fully_funded then .error .stateConflict
    else
      let donor_key := (campaign_id, sender)
      match lookupK s.donations donor_key with
      | none => .error .notFound
      | some refund_amount =>
        if ¬ refund_amount > 0 then .error .bounds
        else
          .ok ({ s with donations := setk s.donations donor_key 0 },
               [Eff.write "donations", Eff.pay sender refund_amount])

/-! ## EventTicketingContract (`ticketing/contract.py`) -/

/-- The `Event` arc4 struct. -/
structure Event where
  organizer : Addr
  price : Nat
  max_tickets : Nat
  sold : Nat
  transferable : Bool
  start_time : Nat
  end_time : Nat
  deriving DecidableEq, Repr

/-- The `Ticket` arc4 struct. -/
structure Ticket where
  event_id : Nat
  owner : Addr
  ticket_number : Nat
  used : Bool
  purchase_time : Nat
  deriving DecidableEq, Repr

/-- Mutable state of `EventTicketingContract`.  The `tickets` box map is
keyed by the ASA id of the minted NFT ticket. -/
structure TickState where
  events : List (Nat × Event)
  tickets : List (Nat × Ticket)
  next_event_id : Nat
  total_tickets_sold : Nat
  deriving DecidableEq, Repr

/-- The freshly deployed `EventTicketingContract`. -/
def TickState.init : TickState :=
  { events := [], tickets := [], next_event_id := 0,
    total_tickets_sold := 0 }

/-- `EventTicketingContract.create_event` (lines 78-121): validate
capacity bounds and times; store a fresh event; return its id. -/
def create_event (s : TickState) (sender : Addr)
    (price max_tickets : Nat) (transferable : Bool)
    (start_time end_time : Nat) : Except Err (TickState × Nat × List Eff) :=
  if ¬ max_tickets > 0 then .error .bounds
  else if ¬ max_tickets ≤ 100000 then .error .bounds
  else if ¬ end_time > start_time then .error .temporal
  else
    let event_id := s.next_event_id
    let event : Event :=
      { organizer := sender
        price := price
        max_tickets := max_tickets
        sold := 0
        transferable := transferable
        start_time := start_time
        end_time := end_time }
    .ok ({ s with
           events := setk s.events event_id event
           next_event_id := s.next_event_id + 1 },
         event_id,
         [Eff.write "events"])

/-- `EventTicketingContract.buy_ticket` (lines 123-205): requires the
event not sold out and an exact-price grouped payment to the app; mints
an NFT, transfers it to the buyer (and freezes it when the event is
non-transferable), stores the `Ticket` record keyed by the fresh ASA id
with `ticket_number = sold`, and increments the sold counters.

The ASA id of the minted asset is produced by the external asset
substrate, which guarantees it is globally fresh; it is passed in as
`asset_id` here and supplied from a substrate counter in `tickRun`. -/
def buy_ticket (app : Addr) (now asset_id : Nat) (s : TickState)
    (sender : Addr) (event_id : Nat) (pay : Payment) :
    Except Err (TickState × Nat × List Eff) :=
  match lookupK s.events event_id with
  | none => .error .notFound
  | some event =>
    if ¬ event.sold < event.max_tickets then .error .stateConflict
    else if pay.amount ≠ event.price then .error .bounds
    else if pay.receiver ≠ app then .error .bounds
    else
      let ticket_number := event.sold
      let ticket : Ticket :=
        { event_id := event_id
          owner := sender
          ticket_number := ticket_number
          used := false
          purchase_time := now }
      let event2 := { event with sold := ticket_number + 1 }
      .ok ({ s with
             tickets := setk s.tickets asset_id ticket
             events := setk s.events event_id event2
             total_tickets_sold := s.total_tickets_sold + 1 },
           asset_id,
           [Eff.write "tickets", Eff.write "events"])

/-- `EventTicketingContract.use_ticket` (lines 223-242): organizer-only;
flips the ticket's `used` flag, which must have been false. -/
def use_ticket (s : TickState) (sender : Addr) (asset_id : Nat) :
    Except Err (TickState × List Eff) :=
  match lookupK s.tickets asset_id with
  | none => .error .notFound
  | some ticket =>
    match lookupK s.events ticket.event_id with
    | none => .error .notFound
    | some event =>
      if sender ≠ event.organizer then .error .auth
      else if ticket.used then .error .stateConflict
      else
        .ok ({ s with
               tickets := setk s.tickets asset_id { ticket with used := true } },
             [Eff.write "tickets"])

/-- `EventTicketingContract.withdraw_sales` (lines 244-264):
organizer-only; pays out `price * sold` by an inner transaction and
performs no store write at all — the contract state is unchanged. -/
def withdraw_sales (s : TickState) (sender : Addr) (event_id : Nat) :
    Except Err (TickState × List Eff) :=
  match lookupK s.events event_id with
  | none => .error .notFound
  | some event =>
    if sender ≠ event.organizer then .error .auth
    else
      let revenue := event.price * event.sold
      if ¬ revenue > 0 then .error .bounds
      else .ok (s, [Eff.pay sender revenue])

/-! ## Run machinery and effect predicates -/

/-- Whether a call succeeded (the atomic bundle committed). -/
def resOk {α : Type} : Except Err α → Bool
  | .ok _ => true
  | .error _ => false

/-- Total value paid out by the call's inner payment transactions; an
aborted bundle pays nothing. -/
def paidAmount : Except Err (TickState × List Eff) → Nat
  | .ok (_, tr) =>
      (tr.map fun e => match e with | .pay _ a => a | .write _ => 0).sum
  | .error _ => 0

/-- The state after a call: the returned state on success, the original
state when the bundle aborted. -/
def postTick (s : TickState) : Except Err (TickState × List Eff) → TickState
  | .ok (s2, _) => s2
  | .error _ => s

/-- Checks-effects-interactions order on a trace: every outbound payment
is preceded by a write of box `box` (scanning with a seen-flag). -/
def markThenPay (box : String) : Bool → List Eff → Bool
  | _, [] => true
  | seen, .write b :: rest => markThenPay box (seen || decide (b = box)) rest
  | seen, .pay _ _ :: rest => seen && markThenPay box seen rest

/-- The authoritative record of box `box` is mutated before any outbound
transfer of the trace is issued. -/
def ceiOK (box : String) (tr : List Eff) : Bool := markThenPay box false tr

/-- One logical operation against `PaymentContract`. -/
inductive PayOp where
  | dep (sender : Addr) (pay : Payment)
  | send (sender recipient : Addr) (amount : Nat)
  | wd (sender : Addr) (amount : Nat)

/-- One atomic bundle against `PaymentContract`: on success the new
state, paired with the value deposited into and withdrawn out of program
custody by the bundle; an aborted bundle leaves the state unchanged and
moves no value (the grouped inbound payment aborts with it). -/
def payStep (app : Addr) (s : PayState) : PayOp → PayState × Nat × Nat
  | .dep sender pay =>
    match deposit app s sender pay with
    | .ok (s2, _) => (s2, pay.amount, 0)
    | .error _ => (s, 0, 0)
  | .send sender recipient amount =>
    match send_money s sender recipient amount with
    | .ok (s2, _, _) => (s2, 0, 0)
    | .error _ => (s, 0, 0)
  | .wd sender amount =>
    match withdraw s sender amount with
    | .ok (s2, _) => (s2, 0, amount)
    | .error _ => (s, 0, 0)

/-- Run a sequence of bundles, accumulating total deposited and total
withdrawn value. -/
def payRun (app : Addr) (s : PayState) : List PayOp → PayState × Nat × Nat
  | [] => (s, 0, 0)
  | op :: ops =>
    let r1 := payStep app s op
    let r2 := payRun app r1.1 ops
    (r2.1, r1.2.1 + r2.2.1, r1.2.2 + r2.2.2)

/-- One post-creation operation against `FundraisingContract`. -/
inductive FundOp where
  | don (app : Addr) (sender : Addr) (campaign_id : Nat) (pay : Payment)
  | rel (sender : Addr) (campaign_id : Nat)
  | ref (now : Nat) (sender : Addr) (campaign_id : Nat)

/-- One atomic bundle against `FundraisingContract`; an aborted bundle
leaves the state unchanged. -/
def fundStep (s : FundState) : FundOp → FundState
  | .don app sender campaign_id pay =>
    match donate app s sender campaign_id pay with
    | .ok (s2, _) => s2
    | .error _ => s
  | .rel sender campaign_id =>
    match release_milestone s sender campaign_id with
    | .ok (s2, _) => s2
    | .error _ => s
  | .ref now sender campaign_id =>
    match claim_refund now s sender campaign_id with
    | .ok (s2, _) => s2
    | .error _ => s

/-- One logical operation against `EventTicketingContract`. -/
inductive TickOp where
  | mke (sender : Addr) (price max_tickets : Nat) (transferable : Bool)
        (start_time end_time : Nat)
  | buy (now : Nat) (sender : Addr) (event_id : Nat) (pay : Payment)
  | useT (sender : Addr) (asset_id : Nat)
  | wds (sender : Addr) (event_id : Nat)

/-- Contract state together with the external asset substrate's fresh
ASA-id source: the substrate guarantees each minted asset id is globally
new, modelled by a counter that every existing id is below. -/
structure TickSys where
  st : TickState
  nextAsset : Nat
  deriving DecidableEq, Repr

/-- One atomic bundle against `EventTicketingContract`; a successful
purchase consumes the substrate's fresh asset id. -/
def tickStep (app : Addr) (sys : TickSys) : TickOp → TickSys
  | .mke sender price max_tickets transferable start_time end_time =>
    match create_event sys.st sender price max_tickets transferable
        start_time end_time with
    | .ok (s2, _, _) => { sys with st := s2 }
    | .error _ => sys
  | .buy now sender event_id pay =>
    match buy_ticket app now sys.nextAsset sys.st sender event_id pay with
    | .ok (s2, _, _) => { st := s2, nextAsset := sys.nextAsset + 1 }
    | .error _ => sys
  | .useT sender asset_id =>
    match use_ticket sys.st sender asset_id with
    | .ok (s2, _) => { sys with st := s2 }
    | .error _ => sys
  | .wds sender event_id =>
    match withdraw_sales sys.st sender event_id with
    | .ok (s2, _) => { sys with st := s2 }
    | .error _ => sys

/-- Run a sequence of bundles against `EventTicketingContract`. -/
def tickRun (app : Addr) (sys : TickSys) : List TickOp → TickSys
  | [] => sys
  | op :: ops => tickRun app (tickStep app sys op) ops

/-- The freshly deployed ticketing system with asset ids starting at 0. -/
def TickSys.init : TickSys := { st := TickState.init, nextAsset := 0 }

/-- Iterate `releaseCore` (the record-level body of `release_milestone`)
`k` times on a campaign, accumulating the total value transferred. -/
def releaseTimes (sender : Addr) : Nat → Campaign → Except Err (Campaign × Nat)
  | 0, c => .ok (c, 0)
  | k + 1, c =>
    match releaseCore sender c with
    | .error e => .error e
    | .ok (c2, amt) =>
      match releaseTimes sender k c2 with
      | .error e => .error e
      | .ok (c3, total) => .ok (c3, amt + total)

/-- The campaign record after all of its milestones are released. -/
def finalCampaign (c : Campaign) : Campaign :=
  { c with milestones_released := c.num_milestones, active := false }

/-- The ticket numbers stored for one event, in storage order. -/
def eventNumbers (tickets : List (Nat × Ticket)) (e : Nat) : List Nat :=
  (tickets.filter fun p => p.2.event_id == e).map fun p => p.2.ticket_number

/-- The ticketing system invariant: box keys are unique and below the
respective id sources, every stored event's `sold` respects
`max_tickets`, and the ticket numbers of each event form exactly the
dense sequence `0 .. sold-1`. -/
structure TickInv (sys : TickSys) : Prop where
  tnodup : (sys.st.tickets.map Prod.fst).Nodup
  enodup : (sys.st.events.map Prod.fst).Nodup
  tfresh : ∀ p ∈ sys.st.tickets, p.1 < sys.nextAsset
  efresh : ∀ p ∈ sys.st.events, p.1 < sys.st.next_event_id
  tevent : ∀ p ∈ sys.st.tickets, p.2.event_id < sys.st.next_event_id
  soldBound : ∀ p ∈ sys.st.events, p.2.sold ≤ p.2.max_tickets
  dense : ∀ p ∈ sys.st.events,
    eventNumbers sys.st.tickets p.1 = List.range p.2.sold

/-! ## Concrete states used by witnesses and counterexamples -/

/-- A ledger state with one account holding 10 microAlgo. -/
def payW : PayState :=
  { balances := [(1, 10)], total_volume := 10, total_transactions := 1,
    active_users := 1 }

/-- The ledger after `send_money payW 1 2 4`. -/
def payW2 : PayState :=
  { balances := [(1, 6), (2, 4)], total_volume := 10,
    total_transactions := 2, active_users := 2 }

/-- A ticketing state with one event (price 5,3 of 3 tickets sold). -/
def tickW : TickState :=
  { events := [(0, { organizer := 7, price := 5, max_tickets := 3,
                     sold := 3, transferable := false, start_time := 100,
                     end_time := 200 })],
    tickets := [(10, { event_id := 0, owner := 2, ticket_number := 0,
                       used := false, purchase_time := 50 }),
                (11, { event_id := 0, owner := 3, ticket_number := 1,
                       used := false, purchase_time := 51 }),
                (12, { event_id := 0, owner := 4, ticket_number := 2,
                       used := false, purchase_time := 52 })],
    next_event_id := 1, total_tickets_sold := 3 }

/-- A fully funded, unsettled expense group. -/
def expG : ExpenseGroup :=
  { creator := 1, total_amount := 100, num_members := 4,
    total_contributed := 100, settled := false, deadline := 99,
    penalty_rate := 0 }

/-- An expense state holding `expG` under group id 0. -/
def expW : ExpState :=
  { groups := [(0, expG)],
    contributions := [((0, 2), 50), ((0, 3), 50)],
    next_group_id := 1, total_groups := 1, total_split := 0 }

/-- The expense state after `settle_group expW 1 0`. -/
def expW2 : ExpState :=
  { groups := [(0, { expG with settled := true })],
    contributions := [((0, 2), 50), ((0, 3), 50)],
    next_group_id := 1, total_groups := 1, total_split := 100 }

/-- An active, underfunded campaign whose deadline (10) is long past. -/
def fundC : Campaign :=
  { creator := 1, goal := 100, raised := 50, num_milestones := 2,
    milestones_released := 0, deadline := 10, active := true,
    fully_funded := false }

/-- A fundraising state holding `fundC` under campaign id 0, donor 2
having donated the 50 raised so far. -/
def fundW : FundState :=
  { campaigns := [(0, fundC)], donations := [((0, 2), 50)],
    next_campaign_id := 1, total_campaigns := 1, total_raised := 50 }

/-- The state after `donate 9 fundW 3 0 ⟨9, 60⟩`: the 60-unit donation
arrives past the deadline and flips `fully_funded`. -/
def fundW2 : FundState :=
  { campaigns := [(0, { fundC with raised := 110, fully_funded := true })],
    donations := [((0, 2), 50), ((0, 3), 60)],
    next_campaign_id := 1, total_campaigns := 1, total_raised := 110 }

/-- A fully funded two-milestone campaign, nothing released yet. -/
def relC : Campaign :=
  { creator := 1, goal := 101, raised := 101, num_milestones := 2,
    milestones_released := 0, deadline := 10, active := true,
    fully_funded := true }

/-- A fundraising state holding the fully funded `relC` under id 0. -/
def relW : FundState :=
  { campaigns := [(0, relC)], donations := [((0, 2), 101)],
    next_campaign_id := 1, total_campaigns := 1, total_raised := 101 }

/-- A ticketing state with one event (capacity 3, two tickets sold). -/
def tickB : TickState :=
  { events := [(0, { organizer := 7, price := 5, max_tickets := 3,
                     sold := 2, transferable := true, start_time := 100,
                     end_time := 200 })],
    tickets := [(10, { event_id := 0, owner := 2, ticket_number := 0,
                       used := false, purchase_time := 50 }),
                (11, { event_id := 0, owner := 3, ticket_number := 1,
                       used := false, purchase_time := 51 })],
    next_event_id := 1, total_tickets_sold := 2 }

/-- `tickB` after the third (capacity-filling) ticket purchase. -/
def tickB2 : TickState :=
  { events := [(0, { organizer := 7, price := 5, max_tickets := 3,
                     sold := 3, transferable := true, start_time := 100,
                     end_time := 200 })],
    tickets := [(10, { event_id := 0, owner := 2, ticket_number := 0,
                       used := false, purchase_time := 50 }),
                (11, { event_id := 0, owner := 3, ticket_number := 1,
                       used := false, purchase_time := 51 }),
                (12, { event_id := 0, owner := 4, ticket_number := 2,
                       used := false, purchase_time := 60 })],
    next_event_id := 1, total_tickets_sold := 3 }

/-! ## Association-list lemmas -/

theorem lookupK_setk_self (m : List (κ × α)) (k : κ) (v : α) :
    lookupK (setk m k v) k = some v := by
  induction m with
  | nil => simp [setk, lookupK]
  | cons hd tl ih =>
      obtain ⟨k2, v2⟩ := hd
      by_cases h : k2 = k
      · simp [setk, h, lookupK]
      · simp [setk, h, lookupK, ih]

theorem lookupK_setk_ne (m : List (κ × α)) (k k1 : κ) (v : α)
    (h : k1 ≠ k) : lookupK (setk m k v) k1 = lookupK m k1 := by
  induction m with
  | nil => simp [setk, lookupK, Ne.symm h]
  | cons hd tl ih =>
      obtain ⟨k2, v2⟩ := hd
      by_cases h2 : k2 = k
      · subst h2
        simp [setk, lookupK, Ne.symm h]
      · simp [setk, if_neg h2, lookupK, ih]

theorem getD_setk_self (m : List (κ × Nat)) (k : κ) (v : Nat) :
    getD (setk m k v) k = v := by
  simp [getD, lookupK_setk_self]

theorem getD_setk_ne (m : List (κ × Nat)) (k k1 : κ) (v : Nat)
    (h : k1 ≠ k) : getD (setk m k v) k1 = getD m k1 := by
  simp [getD, lookupK_setk_ne m k k1 v h]

/-- Updating a key changes the stored sum by the difference with the
previous value (first-occurrence semantics, no key-distinctness needed). -/
theorem sumv_setk (m : List (κ × Nat)) (k : κ) (v : Nat) :
    sumv (setk m k v) + getD m k = sumv m + v := by
  induction m with
  | nil => simp [setk, sumv, getD, lookupK]
  | cons hd tl ih =>
      obtain ⟨k2, v2⟩ := hd
      by_cases h : k2 = k
      · simp [setk, h, sumv, getD, lookupK]
        omega
      · simp only [setk, if_neg h, sumv, List.map_cons, List.sum_cons,
          getD, lookupK, if_neg h] at *
        omega

/-! ## Further association-list lemmas -/

theorem lookupK_some_mem {m : List (κ × α)} {k : κ} {v : α}
    (h : lookupK m k = some v) : (k, v) ∈ m := by
  induction m with
  | nil => simp [lookupK] at h
  | cons hd tl ih =>
      obtain ⟨k2, v2⟩ := hd
      by_cases h2 : k2 = k
      · subst h2
        simp [lookupK] at h
        simp [h]
      · simp [lookupK, h2] at h
        exact List.mem_cons_of_mem _ (ih h)

theorem setk_of_not_mem {m : List (κ × α)} {k : κ} (v : α)
    (h : k ∉ m.map Prod.fst) : setk m k v = m ++ [(k, v)] := by
  induction m with
  | nil => simp [setk]
  | cons hd tl ih =>
      obtain ⟨k2, v2⟩ := hd
      simp only [List.map_cons, List.mem_cons] at h
      push_neg at h
      simp [setk, Ne.symm h.1, ih h.2]

theorem map_fst_setk (m : List (κ × α)) (k : κ) (v : α) :
    (setk m k v).map Prod.fst = m.map Prod.fst ∨
    (setk m k v).map Prod.fst = m.map Prod.fst ++ [k] := by
  induction m with
  | nil => right; simp [setk]
  | cons hd tl ih =>
      obtain ⟨k2, v2⟩ := hd
      by_cases h : k2 = k
      · left; simp [setk, h]
      · rcases ih with ih | ih
        · left; simp [setk, h, ih]
        · right; simp [setk, h, ih]

theorem map_fst_setk_of_mem {m : List (κ × α)} {k : κ} {w : α} (v : α)
    (h : lookupK m k = some w) :
    (setk m k v).map Prod.fst = m.map Prod.fst := by
  induction m with
  | nil => simp [lookupK] at h
  | cons hd tl ih =>
      obtain ⟨k2, v2⟩ := hd
      by_cases h2 : k2 = k
      · simp [setk, h2]
      · simp only [lookupK, if_neg h2] at h
        simp [setk, h2, ih h]

theorem mem_setk {m : List (κ × α)} {k : κ} {v : α} {p : κ × α}
    (h : p ∈ setk m k v) : p = (k, v) ∨ p ∈ m := by
  induction m with
  | nil => simpa [setk] using h
  | cons hd tl ih =>
      obtain ⟨k2, v2⟩ := hd
      by_cases h2 : k2 = k
      · simp only [setk, if_pos h2, List.mem_cons] at h
        rcases h with h | h
        · left; exact h
        · right; exact List.mem_cons_of_mem _ h
      · simp only [setk, if_neg h2, List.mem_cons] at h
        rcases h with h | h
        · right; simp [h]
        · rcases ih h with h3 | h3
          · left; exact h3
          · right; exact List.mem_cons_of_mem _ h3

theorem mem_setk_nodup {m : List (κ × α)} {k : κ} {v : α} {p : κ × α} :
    (m.map Prod.fst).Nodup → p ∈ setk m k v →
    p = (k, v) ∨ (p ∈ m ∧ p.1 ≠ k) := by
  induction m with
  | nil =>
      intro _ h
      simp only [setk, List.mem_singleton] at h
      left; exact h
  | cons hd tl ih =>
      intro hn h
      obtain ⟨k2, v2⟩ := hd
      simp only [List.map_cons, List.nodup_cons] at hn
      by_cases h2 : k2 = k
      · subst h2
        simp [setk] at h
        rcases h with h | h
        · left; exact h
        · right
          refine ⟨List.mem_cons_of_mem _ h, ?_⟩
          intro hk
          exact hn.1 (hk ▸ List.mem_map_of_mem Prod.fst h)
      · simp [setk, h2] at h
        rcases h with h | h
        · right
          refine ⟨by simp [h], ?_⟩
          simp [h]
          exact h2
        · rcases ih hn.2 h with h3 | h3
          · left; exact h3
          · right; exact ⟨List.mem_cons_of_mem _ h3.1, h3.2⟩

/-! ## Computation equations (the match on the looked-up record reduced) -/

theorem contribute_eq (app : Addr) (s : ExpState) (sender : Addr)
    (gid : Nat) (pay : Payment) (g : ExpenseGroup)
    (hl : lookupK s.groups gid = some g) :
    contribute app s sender gid pay =
      (if g.settled then .error .stateConflict
       else if pay.receiver ≠ app then .error .bounds
       else if ¬ pay.amount ≥ g.total_amount / g.num_members then
         .error .bounds
       else
         .ok ({ s with
                contributions := setk s.contributions (gid, sender)
                  (getD s.contributions (gid, sender) + pay.amount)
                groups := setk s.groups gid
                  { g with total_contributed := g.total_contributed + pay.amount } },
              [Eff.write "contributions", Eff.write "groups"])) := by
  unfold contribute
  rw [hl]

theorem settle_group_eq (s : ExpState) (sender : Addr) (gid : Nat)
    (g : ExpenseGroup) (hl : lookupK s.groups gid = some g) :
    settle_group s sender gid =
      (if sender ≠ g.creator then .error .auth
       else if ¬ g.total_contributed ≥ g.total_amount then
         .error .stateConflict
       else if g.settled then .error .stateConflict
       else
         .ok ({ s with
                groups := setk s.groups gid { g with settled := true }
                total_split := s.total_split + g.total_amount },
              [Eff.write "groups", Eff.pay g.creator g.total_amount])) := by
  unfold settle_group
  rw [hl]

theorem donate_eq (app : Addr) (s : FundState) (sender : Addr)
    (cid : Nat) (pay : Payment) (c : Campaign)
    (hl : lookupK s.campaigns cid = some c) :
    donate app s sender cid pay =
      (if ¬ c.active then .error .stateConflict
       else if pay.receiver ≠ app then .error .bounds
       else if ¬ pay.amount > 0 then .error .bounds
       else
         .ok ({ s with
                donations := setk s.donations (cid, sender)
                  (getD s.donations (cid, sender) + pay.amount)
                campaigns := setk s.campaigns cid
                  { c with
                    raised := c.raised + pay.amount
                    fully_funded :=
                      if c.raised + pay.amount ≥ c.goal then true
                      else c.fully_funded }
                total_raised := s.total_raised + pay.amount },
              [Eff.write "donations", Eff.write "campaigns"])) := by
  unfold donate
  rw [hl]

theorem release_milestone_eq (s : FundState) (sender : Addr) (cid : Nat)
    (c : Campaign) (hl : lookupK s.campaigns cid = some c) :
    release_milestone s sender cid =
      (match releaseCore sender c with
       | .error e => .error e
       | .ok (c2, amt) =>
         .ok ({ s with campaigns := setk s.campaigns cid c2 },
              [Eff.pay c.creator amt, Eff.write "campaigns"])) := by
  unfold release_milestone
  rw [hl]

theorem claim_refund_eq (now : Nat) (s : FundState) (sender : Addr)
    (cid : Nat) (c : Campaign) (hl : lookupK s.campaigns cid = some c) :
    claim_refund now s sender cid =
      (if ¬ now > c.deadline then .error .temporal
       else if c.fully_funded then .error .stateConflict
       else
         match lookupK s.donations (cid, sender) with
         | none => .error .notFound
         | some refund_amount =>
           if ¬ refund_amount > 0 then .error .bounds
           else
             .ok ({ s with donations := setk s.donations (cid, sender) 0 },
                  [Eff.write "donations", Eff.pay sender refund_amount])) := by
  unfold claim_refund
  rw [hl]

theorem buy_ticket_eq (app : Addr) (now aid : Nat) (s : TickState)
    (sender : Addr) (eid : Nat) (pay : Payment) (ev : Event)
    (hl : lookupK s.events eid = some ev) :
    buy_ticket app now aid s sender eid pay =
      (if ¬ ev.sold < ev.max_tickets then .error .stateConflict
       else if pay.amount ≠ ev.price then .error .bounds
       else if pay.receiver ≠ app then .error .bounds
       else
         .ok ({ s with
                tickets := setk s.tickets aid
                  { event_id := eid, owner := sender,
                    ticket_number := ev.sold, used := false,
                    purchase_time := now }
                events := setk s.events eid { ev with sold := ev.sold + 1 }
                total_tickets_sold := s.total_tickets_sold + 1 },
              aid,
              [Eff.write "tickets", Eff.write "events"])) := by
  unfold buy_ticket
  rw [hl]

/-! ## C9 — `send_money` functional correctness -/

/-- C9: `send_money` succeeds exactly when the caller's balance covers
the amount and the amount is positive; on success it debits the caller
and credits the recipient (whose record reads as zero when absent),
issues no outbound transfer, and returns the incremented global
transaction counter. -/
theorem C9_send_money_spec (s : PayState) (sender recipient : Addr)
    (amount : Nat) :
    (resOk (send_money s sender recipient amount) = true ↔
      getD s.balances sender ≥ amount ∧ amount > 0) ∧
    (∀ s2 ret tr, send_money s sender recipient amount = .ok (s2, ret, tr) →
      ret = s.total_transactions + 1 ∧
      s2.total_transactions = s.total_transactions + 1 ∧
      (∀ d a, Eff.pay d a ∉ tr) ∧
      (∀ a, getD s2.balances a =
        if a = sender ∧ a = recipient then getD s.balances a
        else if a = sender then getD s.balances a - amount
        else if a = recipient then getD s.balances a + amount
        else getD s.balances a)) := by
  constructor
  · unfold send_money resOk
    by_cases h1 : getD s.balances sender ≥ amount <;>
      by_cases h2 : amount > 0 <;> simp [h1, h2]
  · intro s2 ret tr h
    unfold send_money at h
    by_cases h1 : getD s.balances sender ≥ amount
    · by_cases h2 : amount > 0
      · simp [h1, h2] at h
        obtain ⟨hst, hret, htr⟩ := h
        subst hst hret htr
        refine ⟨rfl, rfl, by intro d a; simp, ?_⟩
        intro a
        by_cases ha : a = recipient
        · subst ha
          rw [getD_setk_self]
          by_cases hr : a = sender
          · subst hr
            rw [getD_setk_self]
            rw [if_pos (And.intro rfl rfl)]
            omega
          · rw [getD_setk_ne _ _ _ _ hr]
            simp [hr]
        · rw [getD_setk_ne _ _ _ _ ha]
          by_cases hs : a = sender
          · subst hs
            rw [getD_setk_self]
            simp [ha]
          · rw [getD_setk_ne _ _ _ _ hs]
            simp [ha, hs]
      · rw [if_neg (by simpa using h1), if_pos h2] at h
        exact absurd h (by simp)
    · rw [if_pos (by simpa using h1)] at h
      exact absurd h (by simp)

/-- C9 witness: a concrete transfer of 4 from account 1 (balance 10) to
the absent account 2 succeeds, credits account 2 from zero, and returns
transaction id 2. -/
theorem C9_send_money_spec_witness :
    resOk (send_money payW 1 2 4) = true ∧
    getD payW2.balances 2 = getD payW.balances 2 + 4 ∧
    getD payW2.balances 1 = getD payW.balances 1 - 4 :=
  ⟨(C9_send_money_spec payW 1 2 4).1.mpr (by decide),
   by
     have h := (C9_send_money_spec payW 1 2 4).2 payW2 2
       [Eff.write "balances", Eff.write "balances"] (by rfl)
     exact ⟨by simpa using h.2.2.2 2, by simpa using h.2.2.2 1⟩⟩

/-! ## C8 — `withdraw_sales` frame and repeatability -/

/-- C8: an organizer call of `withdraw_sales` pays out exactly
`price * sold`, leaves every stored record unchanged, and a repeated
call in the resulting state is the very same call and pays the same
cumulative revenue again (a zero-revenue call aborts and pays nothing,
which is again `price * sold = 0`). -/
theorem C8_withdraw_sales_frame (s : TickState) (eid : Nat) (ev : Event)
    (sender : Addr) (hl : lookupK s.events eid = some ev)
    (ho : sender = ev.organizer) :
    paidAmount (withdraw_sales s sender eid) = ev.price * ev.sold ∧
    postTick s (withdraw_sales s sender eid) = s ∧
    withdraw_sales (postTick s (withdraw_sales s sender eid)) sender eid
      = withdraw_sales s sender eid ∧
    (ev.price * ev.sold > 0 →
      withdraw_sales s sender eid
        = .ok (s, [Eff.pay sender (ev.price * ev.sold)])) := by
  subst ho
  by_cases hr : ev.price * ev.sold > 0
  · have hcall : withdraw_sales s ev.organizer eid
        = .ok (s, [Eff.pay ev.organizer (ev.price * ev.sold)]) := by
      unfold withdraw_sales
      rw [hl]
      simp [hr]
    refine ⟨?_, ?_, ?_, fun _ => hcall⟩
    · rw [hcall]; simp [paidAmount]
    · rw [hcall]; simp [postTick]
    · rw [hcall]
      simpa [postTick] using hcall
  · have hz : ev.price * ev.sold = 0 := by omega
    have hcall : withdraw_sales s ev.organizer eid = .error .bounds := by
      unfold withdraw_sales
      rw [hl]
      simp [hr]
    refine ⟨?_, ?_, ?_, fun h => absurd h hr⟩
    · rw [hcall]; simp [paidAmount, hz]
    · rw [hcall]; simp [postTick]
    · rw [hcall]
      simpa [postTick] using hcall

/-- C8 witness: on a concrete event (price 5, 3 tickets sold) the
organizer's `withdraw_sales` pays 15, leaves the state untouched, and
the repeated call pays 15 again. -/
theorem C8_withdraw_sales_frame_witness :
    paidAmount (withdraw_sales tickW 7 0) = 15 ∧
    postTick tickW (withdraw_sales tickW 7 0) = tickW :=
  ⟨(C8_withdraw_sales_frame tickW 0
      { organizer := 7, price := 5, max_tickets := 3, sold := 3,
        transferable := false, start_time := 100, end_time := 200 }
      7 (by decide) rfl).1,
   (C8_withdraw_sales_frame tickW 0
      { organizer := 7, price := 5, max_tickets := 3, sold := 3,
        transferable := false, start_time := 100, end_time := 200 }
      7 (by decide) rfl).2.1⟩

/-! ## C4 — `settle_group` settles exactly once -/

/-- C4: `settle_group` succeeds exactly when the caller is the creator,
`total_contributed ≥ total_amount` and `settled` is false; it then marks
the group settled and pays exactly `total_amount` to the creator, and on
the settled group every further `settle_group` and `contribute` call
fails — the settled flag is observed true and no group operation resets
it. -/
theorem C4_settle_group_once (s : ExpState) (sender : Addr) (gid : Nat)
    (g : ExpenseGroup) (hl : lookupK s.groups gid = some g) :
    (resOk (settle_group s sender gid) = true ↔
      sender = g.creator ∧ g.total_contributed ≥ g.total_amount ∧
      g.settled = false) ∧
    (∀ s2 tr, settle_group s sender gid = .ok (s2, tr) →
      tr = [Eff.write "groups", Eff.pay g.creator g.total_amount] ∧
      lookupK s2.groups gid = some { g with settled := true } ∧
      (∀ sender2, resOk (settle_group s2 sender2 gid) = false) ∧
      (∀ app sender2 pay, resOk (contribute app s2 sender2 gid pay) = false)) := by
  rw [settle_group_eq s sender gid g hl]
  by_cases hc : sender = g.creator
  · by_cases hf : g.total_contributed ≥ g.total_amount
    · cases hs : g.settled
      · simp only [hc, hf, hs, ne_eq, not_true_eq_false, if_false,
          Bool.false_eq_true, ite_false, ite_true]
        constructor
        · simp [resOk]
        · intro s2 tr h
          simp only [Except.ok.injEq, Prod.mk.injEq] at h
          obtain ⟨hs2, htr⟩ := h
          subst htr
          refine ⟨rfl, ?_, ?_, ?_⟩
          · rw [← hs2]
            exact lookupK_setk_self ..
          · intro sender2
            have hl2 : lookupK s2.groups gid = some { g with settled := true } := by
              rw [← hs2]; exact lookupK_setk_self ..
            rw [settle_group_eq s2 sender2 gid _ hl2]
            by_cases h2 : sender2 = g.creator <;> simp [h2, resOk, hf]
          · intro app sender2 pay
            have hl2 : lookupK s2.groups gid = some { g with settled := true } := by
              rw [← hs2]; exact lookupK_setk_self ..
            rw [contribute_eq app s2 sender2 gid pay _ hl2]
            simp [resOk]
      · rw [if_neg (by simpa using hc), if_neg (by simpa using hf), if_pos (by simp [hs])]
        constructor
        · simp [resOk, hs]
        · intro s2 tr h
          exact absurd h (by simp)
    · rw [if_neg (by simpa using hc), if_pos (by simpa using hf)]
      constructor
      · simp [resOk]
        intro _
        omega
      · intro s2 tr h
        exact absurd h (by simp)
  · rw [if_pos (by simpa using hc)]
    constructor
    · simp [resOk, hc]
    · intro s2 tr h
      exact absurd h (by simp)

/-- C4 witness: settling the concrete fully funded group 0 of `expW` by
its creator succeeds, and on the settled state both a second settlement
and a further contribution are rejected. -/
theorem C4_settle_group_once_witness :
    resOk (settle_group expW 1 0) = true ∧
    resOk (settle_group expW2 1 0) = false ∧
    resOk (contribute 9 expW2 2 0 { receiver := 9, amount := 25 }) = false := by
  have h := C4_settle_group_once expW 1 0 expG (by rfl)
  have h2 := h.2 expW2 [Eff.write "groups", Eff.pay 1 100] (by rfl)
  exact ⟨h.1.mpr ⟨rfl, by decide, rfl⟩, h2.2.2.1 1,
    h2.2.2.2 9 2 { receiver := 9, amount := 25 }⟩

/-! ## C5 — `contribute` precondition and accumulation -/

/-- C5: `contribute` succeeds exactly when the group exists, is
unsettled, the inbound payment goes to the program and its amount is at
least `total_amount // num_members`; on success the full payment amount
is added both to the caller's per-group contribution record (read as
zero when absent) and to the group's `total_contributed`, other members'
records are untouched, and — there being no cap — a repeated qualifying
contribution by the same member succeeds again and accumulates. -/
theorem C5_contribute_accumulates (app : Addr) (s : ExpState)
    (sender : Addr) (gid : Nat) (pay : Payment) (g : ExpenseGroup)
    (hl : lookupK s.groups gid = some g) :
    (resOk (contribute app s sender gid pay) = true ↔
      g.settled = false ∧ pay.receiver = app ∧
      pay.amount ≥ g.total_amount / g.num_members) ∧
    (∀ s2 tr, contribute app s sender gid pay = .ok (s2, tr) →
      getD s2.contributions (gid, sender)
        = getD s.contributions (gid, sender) + pay.amount ∧
      (∀ member, member ≠ sender →
        getD s2.contributions (gid, member)
          = getD s.contributions (gid, member)) ∧
      lookupK s2.groups gid
        = some { g with total_contributed := g.total_contributed + pay.amount } ∧
      (∀ pay2 : Payment, pay2.receiver = app →
        pay2.amount ≥ g.total_amount / g.num_members →
        resOk (contribute app s2 sender gid pay2) = true)) := by
  rw [contribute_eq app s sender gid pay g hl]
  cases hs : g.settled
  · by_cases hr : pay.receiver = app
    · by_cases ha : pay.amount ≥ g.total_amount / g.num_members
      · rw [if_neg (by simp [hs]), if_neg (by simpa using hr),
          if_neg (by simpa using ha)]
        constructor
        · simp [resOk, hr, ha]
        · intro s2 tr h
          simp only [Except.ok.injEq, Prod.mk.injEq] at h
          obtain ⟨hs2, htr⟩ := h
          refine ⟨?_, ?_, ?_, ?_⟩
          · rw [← hs2]
            exact getD_setk_self ..
          · intro member hm
            rw [← hs2]
            exact getD_setk_ne _ _ _ _ (by simp [hm])
          · rw [← hs2]
            exact lookupK_setk_self ..
          · intro pay2 hr2 ha2
            rw [contribute_eq app s2 sender gid pay2 _
              (by rw [← hs2]; exact lookupK_setk_self s.groups gid _)]
            rw [if_neg (by simp), if_neg (by simpa using hr2),
              if_neg (by simpa using ha2)]
            rfl
      · rw [if_neg (by simp [hs]), if_neg (by simpa using hr),
          if_pos (by simpa using ha)]
        exact ⟨by simp [resOk]; omega, fun s2 tr h => absurd h (by simp)⟩
    · rw [if_neg (by simp [hs]), if_pos (by simpa using hr)]
      exact ⟨by simp [resOk, hr], fun s2 tr h => absurd h (by simp)⟩
  · rw [if_pos (by simp [hs])]
    exact ⟨by simp [resOk, hs], fun s2 tr h => absurd h (by simp)⟩

/-- C5 witness: contributing 30 (share being 25) to the concrete group 0
of `expW` from the fresh account 5 succeeds, creates the record at zero
and accumulates 30, and a second contribution of 25 succeeds again. -/
theorem C5_contribute_accumulates_witness :
    resOk (contribute 9 expW 5 0 { receiver := 9, amount := 30 }) = true ∧
    getD expW.contributions (0, 5) = 0 := by
  have h := C5_contribute_accumulates 9 expW 5 0
    { receiver := 9, amount := 30 } expG (by rfl)
  exact ⟨h.1.mpr ⟨rfl, rfl, by decide⟩, by decide⟩

/-! ## C10 — `donate` ignores the deadline and can close the refund path -/

/-- C10: `donate` performs no deadline check — on an active campaign a
positive payment to the program succeeds even past the deadline while
underfunded, and when it lifts `raised` to the goal it sets
`fully_funded`, after which every `claim_refund` call on the campaign
fails. -/
theorem C10_donate_ignores_deadline (app : Addr) (s : FundState)
    (sender : Addr) (cid : Nat) (pay : Payment) (c : Campaign) (now : Nat)
    (hl : lookupK s.campaigns cid = some c)
    (hactive : c.active = true)
    (hrecv : pay.receiver = app) (hamt : pay.amount > 0)
    (hlate : now > c.deadline) (hunder : c.raised < c.goal) :
    resOk (donate app s sender cid pay) = true ∧
    (∀ s2 tr, donate app s sender cid pay = .ok (s2, tr) →
      c.raised + pay.amount ≥ c.goal →
      (∃ c2, lookupK s2.campaigns cid = some c2 ∧ c2.fully_funded = true) ∧
      (∀ now2 donor, resOk (claim_refund now2 s2 donor cid) = false)) := by
  rw [donate_eq app s sender cid pay c hl]
  rw [if_neg (by simp [hactive]), if_neg (by simpa using hrecv),
    if_neg (by omega)]
  refine ⟨rfl, ?_⟩
  intro s2 tr h hge
  simp only [Except.ok.injEq, Prod.mk.injEq] at h
  obtain ⟨hs2, htr⟩ := h
  have hl2 : lookupK s2.campaigns cid
      = some { c with
               raised := c.raised + pay.amount
               fully_funded :=
                 if c.raised + pay.amount ≥ c.goal then true
                 else c.fully_funded } := by
    rw [← hs2]
    exact lookupK_setk_self s.campaigns cid _
  refine ⟨⟨_, hl2, by simp [hge]⟩, ?_⟩
  intro now2 donor
  rw [claim_refund_eq now2 s2 donor cid _ hl2]
  by_cases hn : now2 > c.deadline
  · rw [if_neg (by simpa using hn)]
    rw [if_pos (by simp [hge])]
    rfl
  · rw [if_pos (by simpa using hn)]
    rfl

/-- C10 witness: donating 60 to the concrete expired, underfunded
campaign 0 of `fundW` (deadline 10, observed at time 20) succeeds, makes
it fully funded, and afterwards donor 2's refund claim at time 30 is
rejected. -/
theorem C10_donate_ignores_deadline_witness :
    resOk (donate 9 fundW 3 0 { receiver := 9, amount := 60 }) = true ∧
    resOk (claim_refund 30 fundW2 2 0) = false := by
  have h := C10_donate_ignores_deadline 9 fundW 3 0
    { receiver := 9, amount := 60 } fundC 20 (by rfl) rfl rfl
    (by decide) (by decide) (by decide)
  exact ⟨h.1, (h.2 fundW2 [Eff.write "donations", Eff.write "campaigns"]
    (by rfl) (by decide)).2 30 2⟩

/-! ## C7 — `fully_funded` is monotone -/

/-- Helper: a successful `releaseCore` does not change `fully_funded`
(or creator, goal, or milestone count). -/
theorem releaseCore_frame (sender : Addr) (c c2 : Campaign) (amt : Nat)
    (h : releaseCore sender c = .ok (c2, amt)) :
    c2.fully_funded = c.fully_funded ∧ c2.creator = c.creator ∧
    c2.goal = c.goal ∧ c2.num_milestones = c.num_milestones ∧
    c2.raised = c.raised ∧ c2.deadline = c.deadline ∧
    c2.milestones_released = c.milestones_released + 1 ∧
    amt = c.goal / c.num_milestones ∧
    c2.active = (if c.milestones_released + 1 = c.num_milestones then false
                 else c.active) := by
  unfold releaseCore at h
  by_cases e1 : sender = c.creator
  · by_cases e2 : c.fully_funded
    · by_cases e3 : c.milestones_released < c.num_milestones
      · rw [if_neg (by simpa using e1), if_neg (by simpa using e2),
          if_neg (by simpa using e3)] at h
        simp only [Except.ok.injEq, Prod.mk.injEq] at h
        obtain ⟨hc2, hamt⟩ := h
        subst hc2
        simp [hamt.symm]
      · rw [if_neg (by simpa using e1), if_neg (by simpa using e2),
          if_pos (by simpa using e3)] at h
        exact absurd h (by simp)
    · rw [if_neg (by simpa using e1), if_pos (by simpa using e2)] at h
      exact absurd h (by simp)
  · rw [if_pos (by simpa using e1)] at h
    exact absurd h (by simp)

/-- Helper: a successful `claim_refund` leaves the campaigns box
untouched (it only zeroes a donation record). -/
theorem claim_refund_campaigns (now : Nat) (s : FundState) (sender : Addr)
    (cid : Nat) (s2 : FundState) (tr : List Eff)
    (h : claim_refund now s sender cid = .ok (s2, tr)) :
    s2.campaigns = s.campaigns := by
  cases hc : lookupK s.campaigns cid with
  | none =>
    have hne : claim_refund now s sender cid = .error .notFound := by
      unfold claim_refund; rw [hc]
    rw [hne] at h
    exact absurd h (by simp)
  | some cam =>
    rw [claim_refund_eq now s sender cid cam hc] at h
    by_cases h1 : now > cam.deadline
    · rw [if_neg (by simpa using h1)] at h
      by_cases h2 : cam.fully_funded
      · rw [if_pos h2] at h
        exact absurd h (by simp)
      · rw [if_neg h2] at h
        cases hdn : lookupK s.donations (cid, sender) with
        | none => rw [hdn] at h; exact absurd h (by simp)
        | some amt =>
          rw [hdn] at h
          replace h :
              (if ¬ amt > 0 then (.error .bounds : Except Err (FundState × List Eff))
               else .ok ({ s with donations := setk s.donations (cid, sender) 0 },
                         [Eff.write "donations", Eff.pay sender amt]))
              = .ok (s2, tr) := h
          by_cases h3 : amt > 0
          · rw [if_neg (by omega)] at h
            simp only [Except.ok.injEq, Prod.mk.injEq] at h
            rw [← h.1]
          · rw [if_pos (by omega)] at h
            exact absurd h (by simp)
    · rw [if_pos (by simpa using h1)] at h
      exact absurd h (by simp)

/-- C7: once a campaign's `fully_funded` flag is true, it stays true
after any further `donate`, `release_milestone` or `claim_refund`
bundle, successful or aborted. -/
theorem C7_fully_funded_monotone (s : FundState) (k : Nat) (c : Campaign)
    (op : FundOp) (hl : lookupK s.campaigns k = some c)
    (hff : c.fully_funded = true) :
    ∃ c2, lookupK (fundStep s op).campaigns k = some c2 ∧
      c2.fully_funded = true := by
  cases op with
  | don app sender cid pay =>
    simp only [fundStep]
    cases hd : donate app s sender cid pay with
    | error e => exact ⟨c, hl, hff⟩
    | ok p =>
      obtain ⟨s2, tr⟩ := p
      show ∃ c2, lookupK s2.campaigns k = some c2 ∧ c2.fully_funded = true
      cases hc : lookupK s.campaigns cid with
      | none =>
        have hne : donate app s sender cid pay = .error .notFound := by
          unfold donate; rw [hc]
        rw [hne] at hd
        exact absurd hd (by simp)
      | some cam =>
        rw [donate_eq app s sender cid pay cam hc] at hd
        by_cases h1 : cam.active
        · by_cases h2 : pay.receiver = app
          · by_cases h3 : pay.amount > 0
            · rw [if_neg (by simp [h1]), if_neg (by simpa using h2),
                if_neg (by omega)] at hd
              simp only [Except.ok.injEq, Prod.mk.injEq] at hd
              obtain ⟨hs2, htr⟩ := hd
              by_cases hck : cid = k
              · subst hck
                rw [hl] at hc
                injection hc with hc
                refine ⟨_, by rw [← hs2]; exact lookupK_setk_self s.campaigns cid _, ?_⟩
                rw [← hc]
                by_cases hge : c.raised + pay.amount ≥ c.goal <;>
                  simp [hge, hff]
              · refine ⟨c, ?_, hff⟩
                rw [← hs2]
                exact (lookupK_setk_ne s.campaigns cid k _
                  (fun hx => hck hx.symm)).trans hl
            · rw [if_neg (by simp [h1]), if_neg (by simpa using h2),
                if_pos (by omega)] at hd
              exact absurd hd (by simp)
          · rw [if_neg (by simp [h1]), if_pos (by simpa using h2)] at hd
            exact absurd hd (by simp)
        · rw [if_pos (by simp [h1])] at hd
          exact absurd hd (by simp)
  | rel sender cid =>
    simp only [fundStep]
    cases hd : release_milestone s sender cid with
    | error e => exact ⟨c, hl, hff⟩
    | ok p =>
      obtain ⟨s2, tr⟩ := p
      show ∃ c2, lookupK s2.campaigns k = some c2 ∧ c2.fully_funded = true
      cases hc : lookupK s.campaigns cid with
      | none =>
        have hne : release_milestone s sender cid = .error .notFound := by
          unfold release_milestone; rw [hc]
        rw [hne] at hd
        exact absurd hd (by simp)
      | some cam =>
        rw [release_milestone_eq s sender cid cam hc] at hd
        cases hrc : releaseCore sender cam with
        | error e => rw [hrc] at hd; exact absurd hd (by simp)
        | ok q =>
          obtain ⟨cam2, amt⟩ := q
          rw [hrc] at hd
          replace hd :
              (.ok ({ s with campaigns := setk s.campaigns cid cam2 },
                    [Eff.pay cam.creator amt, Eff.write "campaigns"])
               : Except Err (FundState × List Eff)) = .ok (s2, tr) := hd
          simp only [Except.ok.injEq, Prod.mk.injEq] at hd
          obtain ⟨hs2, htr⟩ := hd
          have hffp := (releaseCore_frame sender cam cam2 amt hrc).1
          by_cases hck : cid = k
          · subst hck
            rw [hl] at hc
            injection hc with hc
            refine ⟨cam2, by rw [← hs2]; exact lookupK_setk_self s.campaigns cid _, ?_⟩
            rw [hffp, ← hc]
            exact hff
          · refine ⟨c, ?_, hff⟩
            rw [← hs2]
            exact (lookupK_setk_ne s.campaigns cid k cam2
              (fun hx => hck hx.symm)).trans hl
  | ref now sender cid =>
    simp only [fundStep]
    cases hd : claim_refund now s sender cid with
    | error e => exact ⟨c, hl, hff⟩
    | ok p =>
      obtain ⟨s2, tr⟩ := p
      show ∃ c2, lookupK s2.campaigns k = some c2 ∧ c2.fully_funded = true
      rw [claim_refund_campaigns now s sender cid s2 tr hd]
      exact ⟨c, hl, hff⟩

/-- C7 witness: after a further donation of 7 by account 4 to the
concrete fully funded campaign 0 of `relW`, the flag is still true. -/
theorem C7_fully_funded_monotone_witness :
    ∃ c2, lookupK (fundStep relW
      (.don 9 4 0 { receiver := 9, amount := 7 })).campaigns 0 = some c2 ∧
      c2.fully_funded = true :=
  C7_fully_funded_monotone relW 0 relC
    (.don 9 4 0 { receiver := 9, amount := 7 }) (by rfl) rfl

/-! ## C1 — checks-effects-interactions ordering -/

/-- C1 counterexample: on a concrete fully funded campaign,
`release_milestone` issues its outbound transfer *before* the campaign
record is written back — its trace is pay-then-write, so the claim that
every outbound-transfer operation mutates the store first is false. -/
theorem C1_cei_counterexample :
    release_milestone relW 1 0 =
      .ok ({ relW with
             campaigns := [(0, { relC with milestones_released := 1 })] },
           [Eff.pay 1 50, Eff.write "campaigns"]) ∧
    ceiOK "campaigns" [Eff.pay 1 50, Eff.write "campaigns"] = false :=
  ⟨rfl, rfl⟩

/-- C1 (amended): `withdraw`, `settle_group` and `claim_refund` mutate
the authoritative record before issuing their outbound transfer, but
`release_milestone` issues the transfer first and writes the updated
campaign record only afterwards — its trace is exactly one payment
followed by the record write. -/
theorem C1_cei_amended :
    (∀ s sender amount s2 tr, withdraw s sender amount = .ok (s2, tr) →
       ceiOK "balances" tr = true) ∧
    (∀ s sender gid s2 tr, settle_group s sender gid = .ok (s2, tr) →
       ceiOK "groups" tr = true) ∧
    (∀ now s sender cid s2 tr, claim_refund now s sender cid = .ok (s2, tr) →
       ceiOK "donations" tr = true) ∧
    (∀ s sender cid s2 tr, release_milestone s sender cid = .ok (s2, tr) →
       ceiOK "campaigns" tr = false ∧
       ∃ dst amt, tr = [Eff.pay dst amt, Eff.write "campaigns"]) := by
  refine ⟨?_, ?_, ?_, ?_⟩
  · intro s sender amount s2 tr h
    unfold withdraw at h
    by_cases h1 : getD s.balances sender ≥ amount
    · by_cases h2 : amount > 0
      · rw [if_neg (by simpa using h1), if_neg (by omega)] at h
        simp only [Except.ok.injEq, Prod.mk.injEq] at h
        rw [← h.2]
        rfl
      · rw [if_neg (by simpa using h1), if_pos (by omega)] at h
        exact absurd h (by simp)
    · rw [if_pos (by simpa using h1)] at h
      exact absurd h (by simp)
  · intro s sender gid s2 tr h
    cases hc : lookupK s.groups gid with
    | none =>
      have hne : settle_group s sender gid = .error .notFound := by
        unfold settle_group; rw [hc]
      rw [hne] at h
      exact absurd h (by simp)
    | some g =>
      rw [settle_group_eq s sender gid g hc] at h
      by_cases e1 : sender = g.creator
      · by_cases e2 : g.total_contributed ≥ g.total_amount
        · by_cases e3 : g.settled
          · rw [if_neg (by simpa using e1), if_neg (by simpa using e2),
              if_pos e3] at h
            exact absurd h (by simp)
          · rw [if_neg (by simpa using e1), if_neg (by simpa using e2),
              if_neg e3] at h
            simp only [Except.ok.injEq, Prod.mk.injEq] at h
            rw [← h.2]
            rfl
        · rw [if_neg (by simpa using e1), if_pos (by simpa using e2)] at h
          exact absurd h (by simp)
      · rw [if_pos (by simpa using e1)] at h
        exact absurd h (by simp)
  · intro now s sender cid s2 tr h
    cases hc : lookupK s.campaigns cid with
    | none =>
      have hne : claim_refund now s sender cid = .error .notFound := by
        unfold claim_refund; rw [hc]
      rw [hne] at h
      exact absurd h (by simp)
    | some cam =>
      rw [claim_refund_eq now s sender cid cam hc] at h
      by_cases e1 : now > cam.deadline
      · rw [if_neg (by simpa using e1)] at h
        by_cases e2 : cam.fully_funded
        · rw [if_pos e2] at h
          exact absurd h (by simp)
        · rw [if_neg e2] at h
          cases hdn : lookupK s.donations (cid, sender) with
          | none => rw [hdn] at h; exact absurd h (by simp)
          | some amt =>
            rw [hdn] at h
            replace h :
                (if ¬ amt > 0 then
                   (.error .bounds : Except Err (FundState × List Eff))
                 else
                   .ok ({ s with donations := setk s.donations (cid, sender) 0 },
                        [Eff.write "donations", Eff.pay sender amt]))
                = .ok (s2, tr) := h
            by_cases e3 : amt > 0
            · rw [if_neg (by omega)] at h
              simp only [Except.ok.injEq, Prod.mk.injEq] at h
              rw [← h.2]
              rfl
            · rw [if_pos (by omega)] at h
              exact absurd h (by simp)
      · rw [if_pos (by simpa using e1)] at h
        exact absurd h (by simp)
  · intro s sender cid s2 tr h
    cases hc : lookupK s.campaigns cid with
    | none =>
      have hne : release_milestone s sender cid = .error .notFound := by
        unfold release_milestone; rw [hc]
      rw [hne] at h
      exact absurd h (by simp)
    | some cam =>
      rw [release_milestone_eq s sender cid cam hc] at h
      cases hrc : releaseCore sender cam with
      | error e => rw [hrc] at h; exact absurd h (by simp)
      | ok q =>
        obtain ⟨cam2, amt⟩ := q
        rw [hrc] at h
        replace h :
            (.ok ({ s with campaigns := setk s.campaigns cid cam2 },
                  [Eff.pay cam.creator amt, Eff.write "campaigns"])
             : Except Err (FundState × List Eff)) = .ok (s2, tr) := h
        simp only [Except.ok.injEq, Prod.mk.injEq] at h
        rw [← h.2]
        exact ⟨rfl, cam.creator, amt, rfl⟩

/-- C1 (amended) witness: concrete successful calls of the four
operations, with mark-then-transfer traces for withdraw, settlement and
refund, and the reversed pay-then-write trace for milestone release. -/
theorem C1_cei_amended_witness :
    ceiOK "balances" [Eff.write "balances", Eff.pay 1 4] = true ∧
    ceiOK "groups" [Eff.write "groups", Eff.pay 1 100] = true ∧
    ceiOK "donations" [Eff.write "donations", Eff.pay 2 50] = true ∧
    ceiOK "campaigns" [Eff.pay 1 50, Eff.write "campaigns"] = false :=
  ⟨C1_cei_amended.1 payW 1 4 _ _ (by rfl),
   C1_cei_amended.2.1 expW 1 0 _ _ (by rfl),
   C1_cei_amended.2.2.1 30 fundW 2 0 _ _ (by rfl),
   (C1_cei_amended.2.2.2 relW 1 0 _ _ (by rfl)).1⟩

/-! ## C2 — ledger solvency invariant -/

/-- One bundle preserves the ledger accounting identity: the stored sum
changes exactly by the value deposited minus the value withdrawn. -/
theorem payStep_sum (app : Addr) (s : PayState) (op : PayOp) :
    sumv (payStep app s op).1.balances + (payStep app s op).2.2
      = sumv s.balances + (payStep app s op).2.1 := by
  cases op with
  | dep sender pay =>
    simp only [payStep]
    cases hd : deposit app s sender pay with
    | error e => simp
    | ok p =>
      obtain ⟨s2, tr⟩ := p
      show sumv s2.balances + 0 = sumv s.balances + pay.amount
      unfold deposit at hd
      by_cases h1 : pay.receiver = app
      · by_cases h2 : pay.amount > 0
        · rw [if_neg (by simpa using h1), if_neg (by omega)] at hd
          simp only [Except.ok.injEq, Prod.mk.injEq] at hd
          obtain ⟨hs2, htr⟩ := hd
          have hb : s2.balances
              = setk s.balances sender (getD s.balances sender + pay.amount) := by
            rw [← hs2]
          rw [hb]
          have hs := sumv_setk s.balances sender
            (getD s.balances sender + pay.amount)
          omega
        · rw [if_neg (by simpa using h1), if_pos (by omega)] at hd
          exact absurd hd (by simp)
      · rw [if_pos (by simpa using h1)] at hd
        exact absurd hd (by simp)
  | send sender recipient amount =>
    simp only [payStep]
    cases hd : send_money s sender recipient amount with
    | error e => simp
    | ok p =>
      obtain ⟨s2, q⟩ := p
      obtain ⟨ret, tr⟩ := q
      show sumv s2.balances + 0 = sumv s.balances + 0
      unfold send_money at hd
      by_cases h1 : getD s.balances sender ≥ amount
      · by_cases h2 : amount > 0
        · rw [if_neg (by simpa using h1), if_neg (by omega)] at hd
          simp only [Except.ok.injEq, Prod.mk.injEq] at hd
          obtain ⟨hs2, hret, htr⟩ := hd
          have hb : s2.balances
              = setk (setk s.balances sender (getD s.balances sender - amount))
                  recipient
                  (getD (setk s.balances sender
                    (getD s.balances sender - amount)) recipient + amount) := by
            rw [← hs2]
          rw [hb]
          have e1 := sumv_setk s.balances sender
            (getD s.balances sender - amount)
          have e2 := sumv_setk
            (setk s.balances sender (getD s.balances sender - amount))
            recipient
            (getD (setk s.balances sender (getD s.balances sender - amount))
              recipient + amount)
          omega
        · rw [if_neg (by simpa using h1), if_pos (by omega)] at hd
          exact absurd hd (by simp)
      · rw [if_pos (by simpa using h1)] at hd
        exact absurd hd (by simp)
  | wd sender amount =>
    simp only [payStep]
    cases hd : withdraw s sender amount with
    | error e => simp
    | ok p =>
      obtain ⟨s2, tr⟩ := p
      show sumv s2.balances + amount = sumv s.balances + 0
      unfold withdraw at hd
      by_cases h1 : getD s.balances sender ≥ amount
      · by_cases h2 : amount > 0
        · rw [if_neg (by simpa using h1), if_neg (by omega)] at hd
          simp only [Except.ok.injEq, Prod.mk.injEq] at hd
          obtain ⟨hs2, htr⟩ := hd
          have hb : s2.balances
              = setk s.balances sender (getD s.balances sender - amount) := by
            rw [← hs2]
          rw [hb]
          have hs := sumv_setk s.balances sender
            (getD s.balances sender - amount)
          omega
        · rw [if_neg (by simpa using h1), if_pos (by omega)] at hd
          exact absurd hd (by simp)
      · rw [if_pos (by simpa using h1)] at hd
        exact absurd hd (by simp)

/-- A run preserves the accounting identity. -/
theorem payRun_sum (app : Addr) (ops : List PayOp) :
    ∀ s : PayState,
      sumv (payRun app s ops).1.balances + (payRun app s ops).2.2
        = sumv s.balances + (payRun app s ops).2.1 := by
  induction ops with
  | nil => intro s; simp [payRun]
  | cons op ops ih =>
    intro s
    simp only [payRun]
    have h1 := payStep_sum app s op
    have h2 := ih (payStep app s op).1
    omega

/-- C2: starting from the empty ledger, after any sequence of deposit,
transfer and withdraw bundles every stored balance is a natural number
(never negative; AVM underflow would abort, and every debit is guarded
by a balance check) and the sum of all stored balances equals — in
particular never exceeds — total deposited minus total withdrawn
value. -/
theorem C2_ledger_invariant (app : Addr) (ops : List PayOp) :
    (∀ a, 0 ≤ getD (payRun app PayState.init ops).1.balances a) ∧
    sumv (payRun app PayState.init ops).1.balances
        + (payRun app PayState.init ops).2.2
      = (payRun app PayState.init ops).2.1 ∧
    sumv (payRun app PayState.init ops).1.balances
      ≤ (payRun app PayState.init ops).2.1
        - (payRun app PayState.init ops).2.2 := by
  have h := payRun_sum app ops PayState.init
  have hz : sumv PayState.init.balances = 0 := by rfl
  exact ⟨fun a => Nat.zero_le _, by omega, by omega⟩

/-! ## C3 — milestone release cycle -/

/-- Running the remaining `k` milestone releases of a fully funded
campaign: every step succeeds and pays `goal // num_milestones`, and the
final record has all milestones released and, when `k ≥ 1`, the
campaign deactivated. -/
theorem releaseTimes_succ (sender : Addr) (k : Nat) (c : Campaign) :
    releaseTimes sender (k + 1) c =
      match releaseCore sender c with
      | Except.error e => Except.error e
      | Except.ok (c2, amt) =>
        match releaseTimes sender k c2 with
        | Except.error e => Except.error e
        | Except.ok (c3, total) => Except.ok (c3, amt + total) := rfl

theorem releaseTimes_run (sender : Addr) :
    ∀ (k : Nat) (c : Campaign), c.fully_funded = true →
      sender = c.creator → c.milestones_released + k = c.num_milestones →
      releaseTimes sender k c =
        .ok ({ c with
               milestones_released := c.num_milestones
               active := if k = 0 then c.active else false },
             k * (c.goal / c.num_milestones)) := by
  intro k
  induction k with
  | zero =>
    intro c hff hcr hk
    have hc : c.milestones_released = c.num_milestones := by omega
    show Except.ok (c, 0) = _
    simp only [Except.ok.injEq, Prod.mk.injEq]
    constructor
    · cases c
      simp_all
    · simp
  | succ k ih =>
    intro c hff hcr hk
    have hlt : c.milestones_released < c.num_milestones := by omega
    have hrc : releaseCore sender c =
        .ok ({ c with
               milestones_released := c.milestones_released + 1
               active :=
                 if c.milestones_released + 1 = c.num_milestones then false
                 else c.active },
             c.goal / c.num_milestones) := by
      unfold releaseCore
      rw [if_neg (by simpa using hcr), if_neg (by simp [hff]),
        if_neg (by simpa using hlt)]
    have hmid := ih
      { c with
        milestones_released := c.milestones_released + 1
        active :=
          if c.milestones_released + 1 = c.num_milestones then false
          else c.active }
      (by simpa using hff) (by simpa using hcr) (by simp; omega)
    rw [releaseTimes_succ, hrc]
    show (match releaseTimes sender k
            { c with
              milestones_released := c.milestones_released + 1
              active :=
                if c.milestones_released + 1 = c.num_milestones then false
                else c.active } with
          | Except.error e => Except.error e
          | Except.ok (c3, total) =>
              Except.ok (c3, c.goal / c.num_milestones + total)) = _
    rw [hmid]
    simp only [Except.ok.injEq, Prod.mk.injEq]
    constructor
    · by_cases hk0 : k = 0
      · subst hk0
        have h1 : c.milestones_released + 1 = c.num_milestones := by omega
        simp [h1]
      · simp [hk0]
    · simp [Nat.succ_mul, Nat.add_comm]

/-- C3: each successful milestone release transfers exactly
`goal // num_milestones` and increments the counter; running all
`num_milestones` releases of a fully funded campaign succeeds, transfers
`num_milestones * (goal // num_milestones) ≤ goal` in total, deactivates
the campaign, and afterwards the creator's next release attempt fails
with a state-conflict error (any other caller fails too). -/
theorem C3_milestone_release (sender : Addr) (c : Campaign)
    (hff : c.fully_funded = true) (hcr : sender = c.creator)
    (h0 : c.milestones_released = 0) (hn : 1 ≤ c.num_milestones) :
    (∀ c1 c2 amt, releaseCore sender c1 = .ok (c2, amt) →
       amt = c1.goal / c1.num_milestones ∧
       c2.milestones_released = c1.milestones_released + 1) ∧
    releaseTimes sender c.num_milestones c
      = .ok (finalCampaign c, c.num_milestones * (c.goal / c.num_milestones)) ∧
    c.num_milestones * (c.goal / c.num_milestones) ≤ c.goal ∧
    (finalCampaign c).active = false ∧
    releaseCore sender (finalCampaign c) = .error .stateConflict ∧
    (∀ sender2, resOk (releaseCore sender2 (finalCampaign c)) = false) := by
  refine ⟨?_, ?_, ?_, rfl, ?_, ?_⟩
  · intro c1 c2 amt h
    have hfr := releaseCore_frame sender c1 c2 amt h
    exact ⟨hfr.2.2.2.2.2.2.2.1, hfr.2.2.2.2.2.2.1⟩
  · have := releaseTimes_run sender c.num_milestones c hff hcr (by omega)
    rw [this]
    have hk0 : c.num_milestones ≠ 0 := by omega
    simp only [finalCampaign, hk0, ite_false, if_neg hk0]
  · calc c.num_milestones * (c.goal / c.num_milestones)
        = c.goal / c.num_milestones * c.num_milestones := Nat.mul_comm ..
      _ ≤ c.goal := Nat.div_mul_le_self ..
  · unfold releaseCore
    rw [if_neg (by simpa [finalCampaign] using hcr),
      if_neg (by simp [finalCampaign, hff])]
    rw [if_pos (by simp [finalCampaign])]
  · intro sender2
    unfold releaseCore
    by_cases h2 : sender2 = (finalCampaign c).creator
    · rw [if_neg (by simpa using h2), if_neg (by simp [finalCampaign, hff]),
        if_pos (by simp [finalCampaign])]
      rfl
    · rw [if_pos (by simpa using h2)]
      rfl

/-- C3 witness: the concrete fully funded campaign `relC` (goal 101,
two milestones) releases 50 twice — 100 in total, one unit short of the
goal — ends deactivated, and the third release attempt is a
state-conflict. -/
theorem C3_milestone_release_witness :
    releaseTimes 1 2 relC = .ok (finalCampaign relC, 2 * (101 / 2)) ∧
    2 * (101 / 2) ≤ 101 ∧
    (finalCampaign relC).active = false ∧
    releaseCore 1 (finalCampaign relC) = .error .stateConflict := by
  have h := C3_milestone_release 1 relC rfl rfl rfl (by decide)
  exact ⟨h.2.1, h.2.2.1, h.2.2.2.1, h.2.2.2.2.1⟩

/-! ## C6 — ticket capacity and dense ticket numbers -/

theorem eventNumbers_append (m : List (Nat × Ticket)) (a : Nat)
    (t : Ticket) (e : Nat) :
    eventNumbers (m ++ [(a, t)]) e =
      eventNumbers m e ++
        (if t.event_id = e then [t.ticket_number] else []) := by
  unfold eventNumbers
  rw [List.filter_append]
  rw [List.map_append]
  by_cases h : t.event_id = e
  · simp [h]
  · simp [h]

theorem eventNumbers_of_absent (m : List (Nat × Ticket)) (e : Nat)
    (h : ∀ p ∈ m, p.2.event_id ≠ e) : eventNumbers m e = [] := by
  unfold eventNumbers
  rw [List.filter_eq_nil_iff.mpr]
  · rfl
  · intro p hp
    simpa using h p hp

theorem eventNumbers_setk_same (e : Nat) :
    ∀ (m : List (Nat × Ticket)) (k : Nat) (t t2 : Ticket),
      lookupK m k = some t → t2.event_id = t.event_id →
      t2.ticket_number = t.ticket_number →
      eventNumbers (setk m k t2) e = eventNumbers m e := by
  intro m
  induction m with
  | nil => intro k t t2 hl _ _; simp [lookupK] at hl
  | cons hd tl ih =>
    intro k t t2 hl he hn
    obtain ⟨k2, v2⟩ := hd
    by_cases h2 : k2 = k
    · subst h2
      simp [lookupK] at hl
      subst hl
      have hset : setk ((k2, v2) :: tl) k2 t2 = (k2, t2) :: tl := by
        simp [setk]
      rw [hset]
      unfold eventNumbers
      simp only [List.filter_cons, List.map_cons]
      by_cases hee : t2.event_id = e
      · rw [if_pos (by simpa using hee), if_pos (by simp [← he, hee])]
        simp [hn]
      · rw [if_neg (by simpa using hee), if_neg (by simp [← he]; exact hee)]
    · simp only [lookupK, if_neg h2] at hl
      simp only [setk, if_neg h2]
      unfold eventNumbers
      simp only [List.filter_cons, List.map_cons]
      have ihe := ih k t t2 hl he hn
      unfold eventNumbers at ihe
      by_cases hee : v2.event_id = e
      · rw [if_pos (by simpa using hee), if_pos (by simpa using hee)]
        simp [ihe]
      · rw [if_neg (by simpa using hee), if_neg (by simpa using hee)]
        exact ihe

/-- A `create_event` bundle preserves the ticketing invariant. -/
theorem tickInv_mke (app : Addr) (sys : TickSys) (sender : Addr)
    (price max_tickets : Nat) (transferable : Bool) (st2 en2 : Nat)
    (h : TickInv sys) :
    TickInv (tickStep app sys (.mke sender price max_tickets transferable st2 en2)) := by
  simp only [tickStep]
  cases hd : create_event sys.st sender price max_tickets transferable st2 en2 with
  | error e => exact h
  | ok p =>
    obtain ⟨s2, q⟩ := p
    obtain ⟨r, tr⟩ := q
    show TickInv { sys with st := s2 }
    unfold create_event at hd
    by_cases h1 : max_tickets > 0
    · by_cases h2 : max_tickets ≤ 100000
      · by_cases h3 : en2 > st2
        · rw [if_neg (by omega), if_neg (by omega), if_neg (by omega)] at hd
          simp only [Except.ok.injEq, Prod.mk.injEq] at hd
          obtain ⟨hs2, hr, htr⟩ := hd
          have hnm : sys.st.next_event_id ∉ sys.st.events.map Prod.fst := by
            intro hmem
            obtain ⟨p, hp, hpe⟩ := List.mem_map.mp hmem
            have := h.efresh p hp
            omega
          have happ := setk_of_not_mem
            ({ organizer := sender, price := price,
               max_tickets := max_tickets, sold := 0,
               transferable := transferable, start_time := st2,
               end_time := en2 } : Event) hnm
          have hev : s2.events = sys.st.events ++
              [(sys.st.next_event_id,
                { organizer := sender, price := price,
                  max_tickets := max_tickets, sold := 0,
                  transferable := transferable, start_time := st2,
                  end_time := en2 })] := by
            rw [← hs2]
            exact happ
          have htk : s2.tickets = sys.st.tickets := by rw [← hs2]
          have hni : s2.next_event_id = sys.st.next_event_id + 1 := by
            rw [← hs2]
          constructor
          · rw [htk]; exact h.tnodup
          · rw [hev]
            simp only [List.map_append, List.map_cons, List.map_nil]
            rw [List.nodup_append]
            exact ⟨h.enodup, List.nodup_singleton _,
              by simpa [List.disjoint_singleton] using hnm⟩
          · intro p hp
            rw [htk] at hp
            exact h.tfresh p hp
          · intro p hp
            obtain ⟨pk, pv⟩ := p
            rw [hev] at hp
            rw [hni]
            rcases List.mem_append.mp hp with hp | hp
            · have := h.efresh _ hp
              simp only [] at this ⊢
              omega
            · simp [Prod.ext_iff] at hp
              simp only []
              omega
          · intro p hp
            rw [htk] at hp
            rw [hni]
            have := h.tevent p hp
            omega
          · intro p hp
            obtain ⟨pk, pv⟩ := p
            rw [hev] at hp
            rcases List.mem_append.mp hp with hp | hp
            · exact h.soldBound _ hp
            · simp [Prod.ext_iff] at hp
              simp [hp.2]
          · intro p hp
            rw [htk]
            rw [hev] at hp
            rcases List.mem_append.mp hp with hp | hp
            · exact h.dense p hp
            · have hp2 : p = (sys.st.next_event_id,
                  { organizer := sender, price := price,
                    max_tickets := max_tickets, sold := 0,
                    transferable := transferable, start_time := st2,
                    end_time := en2 }) := by simpa using hp
              subst hp2
              show eventNumbers sys.st.tickets sys.st.next_event_id = List.range 0
              rw [List.range_zero]
              apply eventNumbers_of_absent
              intro tp htp
              have := h.tevent tp htp
              omega
        · rw [if_neg (by omega), if_neg (by omega), if_pos (by omega)] at hd
          exact absurd hd (by simp)
      · rw [if_neg (by omega), if_pos (by omega)] at hd
        exact absurd hd (by simp)
    · rw [if_pos (by omega)] at hd
      exact absurd hd (by simp)

/-- A `buy_ticket` bundle preserves the ticketing invariant: the fresh
ticket gets number `sold`, extending the dense sequence. -/
theorem tickInv_buy (app : Addr) (sys : TickSys) (now : Nat)
    (sender : Addr) (eid : Nat) (pay : Payment) (h : TickInv sys) :
    TickInv (tickStep app sys (.buy now sender eid pay)) := by
  simp only [tickStep]
  cases hd : buy_ticket app now sys.nextAsset sys.st sender eid pay with
  | error e => exact h
  | ok p =>
    obtain ⟨s2, q⟩ := p
    obtain ⟨r, tr⟩ := q
    show TickInv { st := s2, nextAsset := sys.nextAsset + 1 }
    cases hc : lookupK sys.st.events eid with
    | none =>
      have hne : buy_ticket app now sys.nextAsset sys.st sender eid pay
          = .error .notFound := by
        unfold buy_ticket; rw [hc]
      rw [hne] at hd
      exact absurd hd (by simp)
    | some ev =>
      rw [buy_ticket_eq app now sys.nextAsset sys.st sender eid pay ev hc] at hd
      by_cases h1 : ev.sold < ev.max_tickets
      · by_cases h2 : pay.amount = ev.price
        · by_cases h3 : pay.receiver = app
          · rw [if_neg (by simpa using h1), if_neg (by simpa using h2),
              if_neg (by simpa using h3)] at hd
            simp only [Except.ok.injEq, Prod.mk.injEq] at hd
            obtain ⟨hs2, hr, htr⟩ := hd
            have hmem : (eid, ev) ∈ sys.st.events := lookupK_some_mem hc
            have haidnm : sys.nextAsset ∉ sys.st.tickets.map Prod.fst := by
              intro hmem2
              obtain ⟨p, hp, hpe⟩ := List.mem_map.mp hmem2
              have := h.tfresh p hp
              omega
            have htkapp : setk sys.st.tickets sys.nextAsset
                { event_id := eid, owner := sender,
                  ticket_number := ev.sold, used := false,
                  purchase_time := now }
                = sys.st.tickets ++
                  [(sys.nextAsset,
                    { event_id := eid, owner := sender,
                      ticket_number := ev.sold, used := false,
                      purchase_time := now })] :=
              setk_of_not_mem _ haidnm
            have htk : s2.tickets = sys.st.tickets ++
                [(sys.nextAsset,
                  { event_id := eid, owner := sender,
                    ticket_number := ev.sold, used := false,
                    purchase_time := now })] := by
              rw [← hs2]
              exact htkapp
            have hevs : s2.events
                = setk sys.st.events eid { ev with sold := ev.sold + 1 } := by
              rw [← hs2]
            have hni : s2.next_event_id = sys.st.next_event_id := by
              rw [← hs2]
            have heidlt : eid < sys.st.next_event_id := h.efresh _ hmem
            constructor
            · rw [htk]
              simp only [List.map_append, List.map_cons, List.map_nil]
              rw [List.nodup_append]
              exact ⟨h.tnodup, List.nodup_singleton _,
                by simpa [List.disjoint_singleton] using haidnm⟩
            · rw [hevs, map_fst_setk_of_mem _ hc]
              exact h.enodup
            · intro p hp
              obtain ⟨pk, pv⟩ := p
              rw [htk] at hp
              rcases List.mem_append.mp hp with hp | hp
              · have := h.tfresh _ hp
                simp only [] at this ⊢
                omega
              · simp [Prod.ext_iff] at hp
                simp only []
                omega
            · intro p hp
              obtain ⟨pk, pv⟩ := p
              rw [hevs] at hp
              rw [hni]
              rcases mem_setk hp with hp | hp
              · simp [Prod.ext_iff] at hp
                simp only []
                omega
              · exact h.efresh _ hp
            · intro p hp
              obtain ⟨pk, pv⟩ := p
              rw [htk] at hp
              rw [hni]
              rcases List.mem_append.mp hp with hp | hp
              · exact h.tevent _ hp
              · simp [Prod.ext_iff] at hp
                simp only [hp.2]
                exact heidlt
            · intro p hp
              obtain ⟨pk, pv⟩ := p
              rw [hevs] at hp
              rcases mem_setk hp with hp | hp
              · simp only [Prod.mk.injEq] at hp
                show pv.sold ≤ pv.max_tickets
                rw [hp.2]
                show ev.sold + 1 ≤ ev.max_tickets
                omega
              · exact h.soldBound _ hp
            · intro p hp
              obtain ⟨pk, pv⟩ := p
              replace hp : (pk, pv) ∈ s2.events := hp
              rw [hevs] at hp
              show eventNumbers s2.tickets pk = List.range pv.sold
              rw [htk, eventNumbers_append]
              rcases mem_setk_nodup h.enodup hp with hp | hp
              · simp only [Prod.mk.injEq] at hp
                obtain ⟨hpk, hpv⟩ := hp
                rw [hpk, hpv]
                show eventNumbers sys.st.tickets eid ++
                    (if eid = eid then [ev.sold] else []) = List.range (ev.sold + 1)
                rw [if_pos rfl, h.dense _ hmem, List.range_succ]
              · obtain ⟨hpmem, hpk⟩ := hp
                have hpk2 : pk ≠ eid := hpk
                show eventNumbers sys.st.tickets pk ++
                    (if eid = pk then [ev.sold] else []) = List.range pv.sold
                rw [if_neg (fun hx => hpk2 hx.symm)]
                rw [List.append_nil]
                exact h.dense _ hpmem
          · rw [if_neg (by simpa using h1), if_neg (by simpa using h2),
              if_pos (by simpa using h3)] at hd
            exact absurd hd (by simp)
        · rw [if_neg (by simpa using h1), if_pos (by simpa using h2)] at hd
          exact absurd hd (by simp)
      · rw [if_pos (by simpa using h1)] at hd
        exact absurd hd (by simp)

theorem use_ticket_eq1 (s : TickState) (sender : Addr) (aid : Nat)
    (tk : Ticket) (ht : lookupK s.tickets aid = some tk) :
    use_ticket s sender aid =
      (match lookupK s.events tk.event_id with
       | none => .error .notFound
       | some event =>
         if sender ≠ event.organizer then .error .auth
         else if tk.used then .error .stateConflict
         else
           .ok ({ s with
                  tickets := setk s.tickets aid { tk with used := true } },
                [Eff.write "tickets"])) := by
  unfold use_ticket
  rw [ht]

/-- A `use_ticket` bundle preserves the ticketing invariant: it only
flips the `used` flag, leaving event id and ticket number unchanged. -/
theorem tickInv_useT (app : Addr) (sys : TickSys) (sender : Addr)
    (aid : Nat) (h : TickInv sys) :
    TickInv (tickStep app sys (.useT sender aid)) := by
  simp only [tickStep]
  cases hd : use_ticket sys.st sender aid with
  | error e => exact h
  | ok p =>
    obtain ⟨s2, tr⟩ := p
    show TickInv { sys with st := s2 }
    cases ht : lookupK sys.st.tickets aid with
    | none =>
      have hne : use_ticket sys.st sender aid = .error .notFound := by
        unfold use_ticket; rw [ht]
      rw [hne] at hd
      exact absurd hd (by simp)
    | some tk =>
      rw [use_ticket_eq1 sys.st sender aid tk ht] at hd
      cases hev : lookupK sys.st.events tk.event_id with
      | none => rw [hev] at hd; exact absurd hd (by simp)
      | some ev =>
        rw [hev] at hd
        replace hd :
            (if sender ≠ ev.organizer then
               (.error .auth : Except Err (TickState × List Eff))
             else if tk.used then .error .stateConflict
             else
               .ok ({ sys.st with
                      tickets := setk sys.st.tickets aid { tk with used := true } },
                    [Eff.write "tickets"])) = .ok (s2, tr) := hd
        by_cases e1 : sender = ev.organizer
        · by_cases e2 : tk.used
          · rw [if_neg (by simpa using e1), if_pos e2] at hd
            exact absurd hd (by simp)
          · rw [if_neg (by simpa using e1), if_neg e2] at hd
            simp only [Except.ok.injEq, Prod.mk.injEq] at hd
            obtain ⟨hs2, htr⟩ := hd
            have htks : s2.tickets
                = setk sys.st.tickets aid { tk with used := true } := by
              rw [← hs2]
            have hevs : s2.events = sys.st.events := by rw [← hs2]
            have hni : s2.next_event_id = sys.st.next_event_id := by
              rw [← hs2]
            have hmem : (aid, tk) ∈ sys.st.tickets := lookupK_some_mem ht
            constructor
            · rw [htks, map_fst_setk_of_mem _ ht]
              exact h.tnodup
            · rw [hevs]
              exact h.enodup
            · intro p hp
              obtain ⟨pk, pv⟩ := p
              rw [htks] at hp
              rcases mem_setk hp with hp | hp
              · simp only [Prod.mk.injEq] at hp
                show pk < sys.nextAsset
                rw [hp.1]
                exact h.tfresh _ hmem
              · exact h.tfresh _ hp
            · intro p hp
              rw [hevs] at hp
              rw [hni]
              exact h.efresh _ hp
            · intro p hp
              obtain ⟨pk, pv⟩ := p
              rw [htks] at hp
              rw [hni]
              rcases mem_setk hp with hp | hp
              · simp only [Prod.mk.injEq] at hp
                show pv.event_id < sys.st.next_event_id
                rw [hp.2]
                show tk.event_id < sys.st.next_event_id
                exact h.tevent _ hmem
              · exact h.tevent _ hp
            · intro p hp
              rw [hevs] at hp
              exact h.soldBound _ hp
            · intro p hp
              obtain ⟨pk, pv⟩ := p
              replace hp : (pk, pv) ∈ s2.events := hp
              rw [hevs] at hp
              show eventNumbers s2.tickets pk = List.range pv.sold
              rw [htks, eventNumbers_setk_same pk sys.st.tickets aid tk
                { tk with used := true } ht rfl rfl]
              exact h.dense _ hp
        · rw [if_pos (by simpa using e1)] at hd
          exact absurd hd (by simp)

/-- A successful `withdraw_sales` returns the state unchanged. -/
theorem withdraw_sales_state (s : TickState) (sender : Addr) (eid : Nat)
    (s2 : TickState) (tr : List Eff)
    (h : withdraw_sales s sender eid = .ok (s2, tr)) : s2 = s := by
  cases hc : lookupK s.events eid with
  | none =>
    have hne : withdraw_sales s sender eid = .error .notFound := by
      unfold withdraw_sales; rw [hc]
    rw [hne] at h
    exact absurd h (by simp)
  | some ev =>
    have hcall : withdraw_sales s sender eid =
        (if sender ≠ ev.organizer then .error .auth
         else if ¬ ev.price * ev.sold > 0 then .error .bounds
         else .ok (s, [Eff.pay sender (ev.price * ev.sold)])) := by
      unfold withdraw_sales
      rw [hc]
    rw [hcall] at h
    by_cases e1 : sender = ev.organizer
    · by_cases e2 : ev.price * ev.sold > 0
      · rw [if_neg (by simpa using e1), if_neg (by omega)] at h
        simp only [Except.ok.injEq, Prod.mk.injEq] at h
        exact h.1.symm
      · rw [if_neg (by simpa using e1), if_pos (by omega)] at h
        exact absurd h (by simp)
    · rw [if_pos (by simpa using e1)] at h
      exact absurd h (by simp)

/-- A `withdraw_sales` bundle preserves the ticketing invariant. -/
theorem tickInv_wds (app : Addr) (sys : TickSys) (sender : Addr)
    (eid : Nat) (h : TickInv sys) :
    TickInv (tickStep app sys (.wds sender eid)) := by
  simp only [tickStep]
  cases hd : withdraw_sales sys.st sender eid with
  | error e => exact h
  | ok p =>
    obtain ⟨s2, tr⟩ := p
    show TickInv { sys with st := s2 }
    rw [withdraw_sales_state sys.st sender eid s2 tr hd]
    exact h

/-- Every bundle preserves the ticketing invariant. -/
theorem tickStep_inv (app : Addr) (sys : TickSys) (op : TickOp)
    (h : TickInv sys) : TickInv (tickStep app sys op) := by
  cases op with
  | mke sender price max_tickets transferable st2 en2 =>
    exact tickInv_mke app sys sender price max_tickets transferable st2 en2 h
  | buy now sender eid pay => exact tickInv_buy app sys now sender eid pay h
  | useT sender aid => exact tickInv_useT app sys sender aid h
  | wds sender eid => exact tickInv_wds app sys sender eid h

/-- Invariant preservation along a whole run. -/
theorem tickRun_inv (app : Addr) :
    ∀ (ops : List TickOp) (sys : TickSys), TickInv sys →
      TickInv (tickRun app sys ops) := by
  intro ops
  induction ops with
  | nil => intro sys h; exact h
  | cons op ops ih =>
    intro sys h
    exact ih (tickStep app sys op) (tickStep_inv app sys op h)

/-- The freshly deployed system satisfies the invariant. -/
theorem tickInv_init : TickInv TickSys.init := by
  constructor <;> simp [TickSys.init, TickState.init]

/-- C6: for every run from the fresh system, `sold ≤ max_tickets` holds
for every stored event and the ticket numbers of each event form the
dense sequence `0 .. sold-1` (the `TickInv` fields `soldBound` and
`dense`); moreover the capacity-filling purchase (at `sold + 1 =
max_tickets`) succeeds, after which every further purchase for that
event fails with a sold-out state-conflict. -/
theorem C6_ticket_capacity_dense (app : Addr) :
    (∀ ops : List TickOp, TickInv (tickRun app TickSys.init ops)) ∧
    (∀ (s : TickState) (eid : Nat) (ev : Event) (now aid : Nat)
       (sender : Addr) (pay : Payment),
       lookupK s.events eid = some ev →
       ev.sold + 1 = ev.max_tickets →
       pay.amount = ev.price → pay.receiver = app →
       resOk (buy_ticket app now aid s sender eid pay) = true ∧
       (∀ s2 r tr, buy_ticket app now aid s sender eid pay = .ok (s2, r, tr) →
         lookupK s2.events eid = some { ev with sold := ev.max_tickets } ∧
         (∀ now2 aid2 sender2 pay2,
           buy_ticket app now2 aid2 s2 sender2 eid pay2
             = .error .stateConflict))) := by
  constructor
  · intro ops
    exact tickRun_inv app ops TickSys.init tickInv_init
  · intro s eid ev now aid sender pay hl hmax hpr hre
    rw [buy_ticket_eq app now aid s sender eid pay ev hl]
    rw [if_neg (by omega), if_neg (by simp [hpr]), if_neg (by simp [hre])]
    refine ⟨rfl, ?_⟩
    intro s2 r tr hd
    simp only [Except.ok.injEq, Prod.mk.injEq] at hd
    obtain ⟨hs2, hr, htr⟩ := hd
    have hl2 : lookupK s2.events eid = some { ev with sold := ev.sold + 1 } := by
      rw [← hs2]
      exact lookupK_setk_self s.events eid _
    constructor
    · rw [hl2, hmax]
    · intro now2 aid2 sender2 pay2
      rw [buy_ticket_eq app now2 aid2 s2 sender2 eid pay2 _ hl2]
      rw [if_pos ?_]
      show ¬ ({ ev with sold := ev.sold + 1 } : Event).sold
          < ({ ev with sold := ev.sold + 1 } : Event).max_tickets
      show ¬ ev.sold + 1 < ev.max_tickets
      omega

/-- C6 witness: on the concrete event of `tickB` (capacity 3, 2 sold)
the third purchase succeeds, and on the resulting sold-out state
`tickB2` a further purchase is rejected as a state-conflict; the
one-event run from the fresh system satisfies the invariant. -/
theorem C6_ticket_capacity_dense_witness :
    TickInv (tickRun 9 TickSys.init [TickOp.mke 7 5 3 true 100 200]) ∧
    resOk (buy_ticket 9 60 12 tickB 4 0 { receiver := 9, amount := 5 }) = true ∧
    buy_ticket 9 70 13 tickB2 5 0 { receiver := 9, amount := 5 }
      = .error .stateConflict := by
  have hev : lookupK tickB.events 0
      = some { organizer := 7, price := 5, max_tickets := 3, sold := 2,
               transferable := true, start_time := 100, end_time := 200 } := by
    rfl
  have h2 := (C6_ticket_capacity_dense 9).2 tickB 0
    { organizer := 7, price := 5, max_tickets := 3, sold := 2,
      transferable := true, start_time := 100, end_time := 200 }
    60 12 4 { receiver := 9, amount := 5 } hev (by decide) (by decide) (by decide)
  have h3 := (h2.2 tickB2 12 [Eff.write "tickets", Eff.write "events"]
    (by rfl)).2 70 13 5 { receiver := 9, amount := 5 }
  exact ⟨(C6_ticket_capacity_dense 9).1 [TickOp.mke 7 5 3 true 100 200],
    h2.1, h3⟩

end DeckPay
